import Mathlib

/-!
# Verification of the repayment allocation engine

Shallow embedding of `RepaymentService` (src/src/service/repayment.service.ts):
the data model (Loan, RepaymentScheduleItem, Repayment, RepaymentAllocation),
the operations `createRepayment` / `allocatePayment` / `checkLoanCompletion` /
`deleteRepayment`, and theorems settling the specification claims about them.

Monetary values (`Decimal` in the source) are modelled as exact rationals `ℚ`;
timestamps (`Date` / `DateTime`) as integers (milliseconds); row ids as naturals.
The persistent store is a record of row lists; each Prisma call of the source is
one explicit store operation.  `createRepayment` is embedded as the list of store
writes it issues (the source awaits each write individually, with no surrounding
`$transaction`), so that both the final state and any failure prefix can be
inspected.
-/

/-- `ScheduleStatus` enum of the source. -/
inductive ScheduleStatus where
  | PENDING
  | PARTIAL
  | PAID
  | OVERDUE
deriving DecidableEq, Repr

/-- `LoanStatus` enum of the source. -/
inductive LoanStatus where
  | DRAFT
  | PENDING_APPROVAL
  | APPROVED
  | ACTIVE
  | COMPLETED
  | DEFAULTED
  | WRITTEN_OFF
  | CANCELED
deriving DecidableEq, Repr

/-- `RepaymentMethod` enum of the source. -/
inductive RepaymentMethod where
  | CASH
  | TRANSFER
  | POS
  | MOBILE
  | USSD
  | OTHER
deriving DecidableEq, Repr

/-- `Role` enum of the source (the slice used by the repayment service). -/
inductive Role where
  | ADMIN
  | BRANCH_MANAGER
  | CREDIT_OFFICER
deriving DecidableEq, Repr

/-- A `Loan` row (the fields the repayment service reads or writes). -/
structure Loan where
  id : Nat
  branchId : Nat
  status : LoanStatus
  closedAt : Option Int
  deletedAt : Option Int
deriving DecidableEq, Repr

/-- A `RepaymentScheduleItem` row. -/
structure ScheduleItem where
  id : Nat
  loanId : Nat
  sequence : Nat
  dueDate : Int
  totalDue : ℚ
  paidAmount : ℚ
  status : ScheduleStatus
  closedAt : Option Int
  deletedAt : Option Int
deriving DecidableEq, Repr

/-- A `Repayment` row. -/
structure Repayment where
  id : Nat
  loanId : Nat
  receivedByUserId : Nat
  amount : ℚ
  paidAt : Int
  method : RepaymentMethod
  reference : Option String
  notes : Option String
  createdAt : Int
  deletedAt : Option Int
deriving DecidableEq, Repr

/-- A `RepaymentAllocation` row. -/
structure Allocation where
  repaymentId : Nat
  scheduleItemId : Nat
  amount : ℚ
deriving DecidableEq, Repr

/-- The persistent store: one list of rows per table.  `nextRepaymentId` models
the id generator for `repayment.create`. -/
@[ext]
structure Store where
  loans : List Loan
  scheduleItems : List ScheduleItem
  repayments : List Repayment
  allocations : List Allocation
  nextRepaymentId : Nat
deriving DecidableEq, Repr

/-- One store write issued by the service.  Each corresponds to a single awaited
Prisma call in the source; the source wraps none of them in a transaction. -/
inductive Write where
  | insertRepayment (r : Repayment)
  | updateItem (id : Nat) (paidAmount : ℚ) (status : ScheduleStatus) (closedAt : Option Int)
  | insertAllocations (rows : List Allocation)
  | updateLoan (id : Nat) (status : LoanStatus) (closedAt : Option Int)
deriving DecidableEq, Repr

/-- Commit one write to the store.  `updateItem` / `updateLoan` update the rows
with the matching id (Prisma `update where id`); inserts append. -/
def applyWrite (s : Store) : Write → Store
  | .insertRepayment r =>
      { s with repayments := s.repayments ++ [r],
               nextRepaymentId := s.nextRepaymentId + 1 }
  | .updateItem id paidAmount status closedAt =>
      { s with scheduleItems := s.scheduleItems.map fun it =>
          if it.id = id then
            { it with paidAmount := paidAmount, status := status, closedAt := closedAt }
          else it }
  | .insertAllocations rows =>
      { s with allocations := s.allocations ++ rows }
  | .updateLoan id status closedAt =>
      { s with loans := s.loans.map fun l =>
          if l.id = id then { l with status := status, closedAt := closedAt } else l }

/-- Commit a list of writes in order. -/
def applyWrites (s : Store) (ws : List Write) : Store :=
  ws.foldl applyWrite s

namespace RepaymentService

/-- The status filter of the allocation query:
`status: { in: [PENDING, PARTIAL, OVERDUE] }`. -/
def eligibleStatus (st : ScheduleStatus) : Bool :=
  st = ScheduleStatus.PENDING ∨ st = ScheduleStatus.PARTIAL ∨ st = ScheduleStatus.OVERDUE

/-- The `findMany` of `allocatePayment` (lines 116–129): the loan's non-deleted
schedule items whose status is PENDING, PARTIAL or OVERDUE, ordered ascending by
`dueDate` (and by nothing else — the query has no secondary sort key; the stable
sort keeps store order between equal due dates). -/
def fetchOutstanding (s : Store) (loanId : Nat) : List ScheduleItem :=
  (s.scheduleItems.filter fun it =>
      it.loanId = loanId ∧ eligibleStatus it.status ∧ it.deletedAt = none).mergeSort
    fun a b => a.dueDate ≤ b.dueDate

/-- The allocation walk of `allocatePayment` (lines 131–166), returned as the
list of (fetched item, allocated amount) pairs, in walk order.  Mirrors the
source loop: stop once `remaining ≤ 0`, skip items with `outstanding ≤ 0`,
allocate `min(remaining, outstanding)` to each remaining item. -/
def allocSteps (remaining : ℚ) : List ScheduleItem → List (ScheduleItem × ℚ)
  | [] => []
  | item :: rest =>
    if remaining ≤ 0 then []
    else
      let itemOutstanding := item.totalDue - item.paidAmount
      if itemOutstanding ≤ 0 then allocSteps remaining rest
      else
        let allocationAmount :=
          if remaining ≥ itemOutstanding then itemOutstanding else remaining
        (item, allocationAmount) :: allocSteps (remaining - allocationAmount) rest

/-- The `repaymentScheduleItem.update` issued for one step of the walk
(lines 151–163): `paidAmount += allocated`, status PAID iff the new paid amount
reaches `totalDue` (else PARTIAL), `closedAt` stamped iff PAID. -/
def stepWrite (now : Int) (p : ScheduleItem × ℚ) : Write :=
  let newPaidAmount := p.1.paidAmount + p.2
  let newStatus : ScheduleStatus :=
    if newPaidAmount ≥ p.1.totalDue then .PAID else .PARTIAL
  Write.updateItem p.1.id newPaidAmount newStatus
    (if newStatus = ScheduleStatus.PAID then some now else none)

/-- The allocation row pushed for one step of the walk (lines 145–149). -/
def stepAlloc (repaymentId : Nat) (p : ScheduleItem × ℚ) : Allocation :=
  { repaymentId := repaymentId, scheduleItemId := p.1.id, amount := p.2 }

/-- `allocatePayment` (lines 110–174) as the list of writes it issues: one
schedule-item update per walk step (in walk order), followed by the single
`repaymentAllocation.createMany` — issued only when at least one allocation was
produced. -/
def allocatePayment (repaymentId loanId : Nat) (amount : ℚ) (now : Int)
    (s : Store) : List Write :=
  let steps := allocSteps amount (fetchOutstanding s loanId)
  let allocations := steps.map (stepAlloc repaymentId)
  steps.map (stepWrite now) ++
    if allocations.length > 0 then [Write.insertAllocations allocations] else []

/-- The count taken by `checkLoanCompletion` (lines 177–183) and by the recheck
in `deleteRepayment` (lines 568–574): the loan's non-deleted schedule items
whose status is not PAID. -/
def pendingItemsCount (s : Store) (loanId : Nat) : Nat :=
  (s.scheduleItems.filter fun it =>
      it.loanId = loanId ∧ it.status ≠ ScheduleStatus.PAID ∧ it.deletedAt = none).length

/-- `checkLoanCompletion` (lines 176–194) as the writes it issues: when no
non-deleted item remains un-PAID, set the loan COMPLETED and stamp `closedAt`. -/
def checkLoanCompletion (loanId : Nat) (now : Int) (s : Store) : List Write :=
  if pendingItemsCount s loanId = 0 then
    [Write.updateLoan loanId .COMPLETED (some now)]
  else []

/-- Input of `createRepayment` (`CreateRepaymentData`). -/
structure CreateRepaymentData where
  loanId : Nat
  amount : ℚ
  paidAt : Option Int
  method : RepaymentMethod
  reference : Option String
  notes : Option String
deriving DecidableEq, Repr

/-- The `Repayment` row inserted by `createRepayment` (lines 75–99): the
supplied amount and metadata, a fresh id, `deletedAt` null. -/
def newRepayment (data : CreateRepaymentData) (receivedByUserId : Nat)
    (now : Int) (s : Store) : Repayment :=
  { id := s.nextRepaymentId, loanId := data.loanId,
    receivedByUserId := receivedByUserId, amount := data.amount,
    paidAt := data.paidAt.getD now, method := data.method,
    reference := data.reference, notes := data.notes,
    createdAt := now, deletedAt := none }

/-- `createRepayment` (lines 48–108) as the list of store writes it issues on
success: validate the loan (exists, not soft-deleted, status ACTIVE — the
amount is *not* validated), insert the Repayment row, run the allocation, then
the completion check.  Each returned write is one individually awaited Prisma
call; the source opens no transaction around them. -/
def createRepayment (data : CreateRepaymentData) (receivedByUserId : Nat)
    (now : Int) (s : Store) : Except String (List Write) :=
  match s.loans.find? (fun l => l.id = data.loanId) with
  | none => .error "Loan not found"
  | some loan =>
    if loan.deletedAt ≠ none then .error "Loan not found"
    else if loan.status ≠ LoanStatus.ACTIVE then
      .error "Can only make payments on active loans"
    else
      let repayment := newRepayment data receivedByUserId now s
      let w0 := Write.insertRepayment repayment
      let s1 := applyWrite s w0
      let allocWrites := allocatePayment repayment.id data.loanId data.amount now s1
      let s2 := applyWrites s1 allocWrites
      .ok (w0 :: allocWrites ++ checkLoanCompletion data.loanId now s2)

/-- `createRepayment` run to completion: every write committed. -/
def createRepaymentRun (data : CreateRepaymentData) (receivedByUserId : Nat)
    (now : Int) (s : Store) : Except String Store :=
  (createRepayment data receivedByUserId now s).map (applyWrites s)

/-- The reversal loop of `deleteRepayment` (lines 537–559): for each allocation
of the repayment, in store order, re-fetch the schedule item by id and, when
found, subtract the allocation's amount from `paidAmount`, recompute the status
(PENDING if the result is ≤ 0, PARTIAL if below `totalDue`, else PAID) and clear
`closedAt`. -/
def reverseAllocs : List Allocation → Store → Store
  | [], s => s
  | a :: rest, s =>
    match s.scheduleItems.find? (fun it => it.id = a.scheduleItemId) with
    | none => reverseAllocs rest s
    | some scheduleItem =>
        let newPaidAmount := scheduleItem.paidAmount - a.amount
        let newStatus : ScheduleStatus :=
          if newPaidAmount ≤ 0 then .PENDING
          else if newPaidAmount < scheduleItem.totalDue then .PARTIAL
          else .PAID
        reverseAllocs rest
          (applyWrite s (.updateItem a.scheduleItemId newPaidAmount newStatus none))

/-- `deleteRepayment` (lines 499–585): find the repayment (with its loan and
allocation rows), reject when missing or already soft-deleted, enforce the role
and 24-hour rules, reverse every allocation, soft-delete the repayment, and —
whenever any non-deleted item of the loan is not PAID — set the loan ACTIVE and
clear its `closedAt` (the source checks no precondition on the loan's current
status there).  `nowMs` is `Date.now()`; the deletion timestamp reuses it. -/
def deleteRepayment (id : Nat) (userRole : Role) (userBranchId : Option Nat)
    (nowMs : Int) (s : Store) : Except String Store :=
  match s.repayments.find? (fun r => r.id = id) with
  | none => .error "Repayment not found"
  | some repayment =>
    if repayment.deletedAt ≠ none then .error "Repayment not found"
    else if userRole = Role.CREDIT_OFFICER then
      .error "Credit officers cannot delete repayments"
    else if userRole = Role.BRANCH_MANAGER ∧ userBranchId ≠ none ∧
        ((s.loans.find? (fun l => l.id = repayment.loanId)).map Loan.branchId
          ≠ userBranchId) then
      .error "You do not have permission to delete this repayment"
    else if ((nowMs - repayment.createdAt : Int) : ℚ) / (1000 * 60 * 60) > 24 then
      .error "Cannot delete repayment after 24 hours. Contact admin."
    else
      let s1 := reverseAllocs
        (s.allocations.filter fun a => a.repaymentId = id) s
      let s2 : Store :=
        { s1 with repayments := s1.repayments.map fun r =>
            if r.id = id then { r with deletedAt := some nowMs } else r }
      if pendingItemsCount s2 repayment.loanId > 0 then
        .ok (applyWrite s2 (.updateLoan repayment.loanId .ACTIVE none))
      else
        .ok s2

/-! ### Observation helpers (store lookups used to state the claims) -/

/-- Look a loan up by id. -/
def getLoan (s : Store) (id : Nat) : Option Loan :=
  s.loans.find? fun l => l.id = id

/-- Look a schedule item up by id. -/
def getItem (s : Store) (id : Nat) : Option ScheduleItem :=
  s.scheduleItems.find? fun it => it.id = id

/-- Look a repayment up by id. -/
def getRepayment (s : Store) (id : Nat) : Option Repayment :=
  s.repayments.find? fun r => r.id = id

/-- The allocation rows belonging to one repayment. -/
def allocationsOf (s : Store) (repaymentId : Nat) : List Allocation :=
  s.allocations.filter fun a => a.repaymentId = repaymentId

/-- Whether the repayment with this id exists and is not soft-deleted. -/
def repaymentActive (s : Store) (repaymentId : Nat) : Bool :=
  match s.repayments.find? (fun r => r.id = repaymentId) with
  | some r => r.deletedAt = none
  | none => false

/-- Sum of the amounts of the *active* allocations targeting a schedule item:
the allocation rows whose repayment is not soft-deleted. -/
def activeAllocSum (s : Store) (itemId : Nat) : ℚ :=
  ((s.allocations.filter fun a =>
      a.scheduleItemId = itemId ∧ repaymentActive s a.repaymentId).map
    Allocation.amount).sum

/-- `pendingItemsCount` on an explicit item list. -/
def pendingOfList (items : List ScheduleItem) (loanId : Nat) : Nat :=
  (items.filter fun it =>
      it.loanId = loanId ∧ it.status ≠ ScheduleStatus.PAID ∧ it.deletedAt = none).length

/-! ### Derived characterizations of the two operations

The next definitions re-express the net store effect of a successful
`createRepayment` / `deleteRepayment` as one pointwise map per table; the
`…_spec` theorems below prove them equal to the operational definitions. -/

/-- The allocation walk run by a `createRepayment` against store `s`. -/
def createSteps (data : CreateRepaymentData) (s : Store) :
    List (ScheduleItem × ℚ) :=
  allocSteps data.amount (fetchOutstanding s data.loanId)

/-- Pointwise effect of the allocation walk on one schedule item: the item
allocated to in step `p` gains `p.2`, every other item is untouched. -/
def itemAfterSteps (now : Int) (steps : List (ScheduleItem × ℚ))
    (it : ScheduleItem) : ScheduleItem :=
  match steps.find? (fun p => p.1.id = it.id) with
  | some p =>
      let newPaidAmount := p.1.paidAmount + p.2
      { it with paidAmount := newPaidAmount,
                status := if newPaidAmount ≥ p.1.totalDue then .PAID else .PARTIAL,
                closedAt := if newPaidAmount ≥ p.1.totalDue then some now else none }
  | none => it

/-- Pointwise effect of the reversal loop on one schedule item: the item
targeted by an allocation of the deleted repayment loses that amount, every
other item is untouched. -/
def itemAfterReverse (allocs : List Allocation) (it : ScheduleItem) :
    ScheduleItem :=
  match allocs.find? (fun a => a.scheduleItemId = it.id) with
  | some a =>
      let newPaidAmount := it.paidAmount - a.amount
      { it with paidAmount := newPaidAmount,
                status := if newPaidAmount ≤ 0 then .PENDING
                          else if newPaidAmount < it.totalDue then .PARTIAL
                          else .PAID,
                closedAt := none }
  | none => it

/-- The loan update written by `checkLoanCompletion`. -/
def completeLoanUpd (loanId : Nat) (now : Int) (l : Loan) : Loan :=
  if l.id = loanId then { l with status := .COMPLETED, closedAt := some now } else l

/-- The loan update written by the recheck of `deleteRepayment`. -/
def reactivateLoanUpd (loanId : Nat) (l : Loan) : Loan :=
  if l.id = loanId then { l with status := .ACTIVE, closedAt := none } else l

/-- Net store effect of a successful `createRepayment`. -/
def createEffect (data : CreateRepaymentData) (receivedByUserId : Nat)
    (now : Int) (s : Store) : Store :=
  let rep := newRepayment data receivedByUserId now s
  let steps := createSteps data s
  let newItems := s.scheduleItems.map (itemAfterSteps now steps)
  { loans := if pendingOfList newItems data.loanId = 0 then
               s.loans.map (completeLoanUpd data.loanId now)
             else s.loans,
    scheduleItems := newItems,
    repayments := s.repayments ++ [rep],
    allocations := s.allocations ++ steps.map (stepAlloc s.nextRepaymentId),
    nextRepaymentId := s.nextRepaymentId + 1 }

/-- Net store effect of a successful `deleteRepayment` of repayment `rep`. -/
def deleteEffect (id : Nat) (rep : Repayment) (nowMs : Int) (s : Store) : Store :=
  let allocs := allocationsOf s id
  let newItems := s.scheduleItems.map (itemAfterReverse allocs)
  { loans := if pendingOfList newItems rep.loanId > 0 then
               s.loans.map (reactivateLoanUpd rep.loanId)
             else s.loans,
    scheduleItems := newItems,
    repayments := s.repayments.map fun r =>
      if r.id = id then { r with deletedAt := some nowMs } else r,
    allocations := s.allocations,
    nextRepaymentId := s.nextRepaymentId }

/-! ### Per-table projections of a write -/

/-- Effect of one write on one schedule item. -/
def writeItemUpdate : Write → ScheduleItem → ScheduleItem
  | .updateItem id paidAmount status closedAt, it =>
      if it.id = id then
        { it with paidAmount := paidAmount, status := status, closedAt := closedAt }
      else it
  | _, it => it

/-- Effect of one write on one loan. -/
def writeLoanUpdate : Write → Loan → Loan
  | .updateLoan id status closedAt, l =>
      if l.id = id then { l with status := status, closedAt := closedAt } else l
  | _, l => l

/-- Repayment rows inserted by one write. -/
def writeRepayments : Write → List Repayment
  | .insertRepayment r => [r]
  | _ => []

/-- Allocation rows inserted by one write. -/
def writeAllocations : Write → List Allocation
  | .insertAllocations rows => rows
  | _ => []

/-- Effect of one write on the id generator. -/
def writeNextId : Write → Nat → Nat
  | .insertRepayment _, n => n + 1
  | _, n => n

/-! ### Store well-formedness and reachability -/

/-- Structural well-formedness of a store, the invariants the persistent layer
guarantees (unique row ids, id-generator freshness, one allocation row per
(repayment, schedule item) pair, positive allocation amounts) together with the
ledger invariant that each item's `paidAmount` is the sum of its active
allocations, bounded by `totalDue`. -/
structure StoreWF (s : Store) : Prop where
  itemIdsNodup : (s.scheduleItems.map ScheduleItem.id).Nodup
  repayIdsNodup : (s.repayments.map Repayment.id).Nodup
  repayIdsBound : ∀ r ∈ s.repayments, r.id < s.nextRepaymentId
  allocRepayBound : ∀ a ∈ s.allocations, a.repaymentId < s.nextRepaymentId
  allocPos : ∀ a ∈ s.allocations, 0 < a.amount
  allocKeyPairwise : s.allocations.Pairwise fun a b =>
    a.repaymentId ≠ b.repaymentId ∨ a.scheduleItemId ≠ b.scheduleItemId
  paidMatches : ∀ it ∈ s.scheduleItems, it.paidAmount = activeAllocSum s it.id
  paidNonneg : ∀ it ∈ s.scheduleItems, 0 ≤ it.paidAmount
  paidLe : ∀ it ∈ s.scheduleItems, it.paidAmount ≤ it.totalDue

/-- One successful engine operation. -/
inductive Step : Store → Store → Prop where
  | create (data : CreateRepaymentData) (uid : Nat) (now : Int) {s s' : Store}
      (h : createRepaymentRun data uid now s = .ok s') : Step s s'
  | delete (id : Nat) (role : Role) (branch : Option Nat) (now : Int) {s s' : Store}
      (h : deleteRepayment id role branch now s = .ok s') : Step s s'

/-- Stores reachable from `s` by a sequence of successful engine operations. -/
def Reachable : Store → Store → Prop :=
  Relation.ReflTransGen Step

end RepaymentService

/-! ### Concrete fixtures used by counterexamples and witnesses -/

/-- An ACTIVE loan. -/
def exLoan : Loan :=
  { id := 10, branchId := 1, status := .ACTIVE, closedAt := none, deletedAt := none }

/-- A PENDING installment of 50 due at time 100. -/
def exItem1 : ScheduleItem :=
  { id := 1, loanId := 10, sequence := 1, dueDate := 100, totalDue := 50,
    paidAmount := 0, status := .PENDING, closedAt := none, deletedAt := none }

/-- A PENDING installment of 50 due at time 200. -/
def exItem2 : ScheduleItem :=
  { id := 2, loanId := 10, sequence := 2, dueDate := 200, totalDue := 50,
    paidAmount := 0, status := .PENDING, closedAt := none, deletedAt := none }

/-- Store with two PENDING installments of 50 each (the partial-distribution
scenario). -/
def exStore2 : Store :=
  { loans := [exLoan], scheduleItems := [exItem1, exItem2], repayments := [],
    allocations := [], nextRepaymentId := 0 }

/-- Store with one PENDING installment of 50 (the overpayment scenario). -/
def exStore1 : Store :=
  { exStore2 with scheduleItems := [exItem1] }

/-- Payment input against loan 10; the amount varies per scenario. -/
def exData (amount : ℚ) : RepaymentService.CreateRepaymentData :=
  { loanId := 10, amount := amount, paidAt := none, method := .CASH,
    reference := none, notes := none }

/-- An OVERDUE installment of 50 with nothing paid. -/
def exItemOverdue : ScheduleItem :=
  { exItem1 with status := .OVERDUE }

/-- Store whose only installment is OVERDUE. -/
def exStoreOverdue : Store :=
  { exStore2 with scheduleItems := [exItemOverdue] }

/-- A PAID installment of 50 (fully paid, closed at time 500). -/
def exItemPaid : ScheduleItem :=
  { exItem1 with paidAmount := 50, status := .PAID, closedAt := some 500 }

/-- Store on an ACTIVE loan whose only installment is already PAID. -/
def exStoreAllPaid : Store :=
  { exStore2 with scheduleItems := [exItemPaid] }

/-- A PARTIAL installment: `totalDue = 100`, `paidAmount = 60`. -/
def exItemPartial : ScheduleItem :=
  { id := 1, loanId := 10, sequence := 1, dueDate := 100, totalDue := 100,
    paidAmount := 60, status := .PARTIAL, closedAt := none, deletedAt := none }

/-- Store with exactly one PARTIAL installment (`totalDue=100, paidAmount=60`). -/
def exStorePartial : Store :=
  { exStore2 with scheduleItems := [exItemPartial] }

/-- Installment with sequence 1, due at time 100. -/
def exTieItem1 : ScheduleItem := exItem1

/-- Installment with sequence 2 and the *same* due date (time 100). -/
def exTieItem2 : ScheduleItem :=
  { exItem2 with dueDate := 100 }

/-- Store holding the two equal-due-date installments with the higher sequence
number first in store order. -/
def exStoreTie : Store :=
  { exStore2 with scheduleItems := [exTieItem2, exTieItem1] }

/-- A DEFAULTED loan. -/
def exLoanDefaulted : Loan :=
  { exLoan with status := .DEFAULTED }

/-- A recorded repayment of 20 against loan 10. -/
def exRepayment20 : Repayment :=
  { id := 0, loanId := 10, receivedByUserId := 5, amount := 20, paidAt := 1000,
    method := .CASH, reference := none, notes := none, createdAt := 1000,
    deletedAt := none }

/-- Store of a DEFAULTED loan carrying a repayment of 20 allocated to its
(PARTIAL) installment. -/
def exStoreDefaulted : Store :=
  { loans := [exLoanDefaulted],
    scheduleItems := [{ exItem1 with paidAmount := 20, status := .PARTIAL }],
    repayments := [exRepayment20],
    allocations := [{ repaymentId := 0, scheduleItemId := 1, amount := 20 }],
    nextRepaymentId := 1 }

/-! ## Lemma layer -/

namespace RepaymentService

theorem applyWrites_nil (s : Store) : applyWrites s [] = s := rfl

theorem applyWrites_cons (s : Store) (w : Write) (ws : List Write) :
    applyWrites s (w :: ws) = applyWrites (applyWrite s w) ws := rfl

theorem applyWrites_append (s : Store) (ws₁ ws₂ : List Write) :
    applyWrites s (ws₁ ++ ws₂) = applyWrites (applyWrites s ws₁) ws₂ :=
  List.foldl_append ..

theorem applyWrite_scheduleItems (s : Store) (w : Write) :
    (applyWrite s w).scheduleItems = s.scheduleItems.map (writeItemUpdate w) := by
  cases w
  case updateItem => rfl
  all_goals exact (List.map_id'' (fun _ => rfl) _).symm

theorem applyWrite_loans (s : Store) (w : Write) :
    (applyWrite s w).loans = s.loans.map (writeLoanUpdate w) := by
  cases w
  case updateLoan => rfl
  all_goals exact (List.map_id'' (fun _ => rfl) _).symm

theorem applyWrite_repayments (s : Store) (w : Write) :
    (applyWrite s w).repayments = s.repayments ++ writeRepayments w := by
  cases w <;> simp [applyWrite, writeRepayments]

theorem applyWrite_allocations (s : Store) (w : Write) :
    (applyWrite s w).allocations = s.allocations ++ writeAllocations w := by
  cases w <;> simp [applyWrite, writeAllocations]

theorem applyWrite_nextRepaymentId (s : Store) (w : Write) :
    (applyWrite s w).nextRepaymentId = writeNextId w s.nextRepaymentId := by
  cases w <;> simp [applyWrite, writeNextId]

theorem applyWrites_scheduleItems (ws : List Write) (s : Store) :
    (applyWrites s ws).scheduleItems =
      s.scheduleItems.map fun it => ws.foldl (fun x w => writeItemUpdate w x) it := by
  induction ws generalizing s with
  | nil => simp [applyWrites, List.map_id']
  | cons w ws ih =>
      rw [applyWrites_cons, ih, applyWrite_scheduleItems, List.map_map]
      rfl

theorem applyWrites_loans (ws : List Write) (s : Store) :
    (applyWrites s ws).loans =
      s.loans.map fun l => ws.foldl (fun x w => writeLoanUpdate w x) l := by
  induction ws generalizing s with
  | nil => simp [applyWrites, List.map_id']
  | cons w ws ih =>
      rw [applyWrites_cons, ih, applyWrite_loans, List.map_map]
      rfl

theorem applyWrites_repayments (ws : List Write) (s : Store) :
    (applyWrites s ws).repayments =
      s.repayments ++ (ws.map writeRepayments).flatten := by
  induction ws generalizing s with
  | nil => simp [applyWrites]
  | cons w ws ih =>
      rw [applyWrites_cons, ih, applyWrite_repayments]
      simp

theorem applyWrites_allocations (ws : List Write) (s : Store) :
    (applyWrites s ws).allocations =
      s.allocations ++ (ws.map writeAllocations).flatten := by
  induction ws generalizing s with
  | nil => simp [applyWrites]
  | cons w ws ih =>
      rw [applyWrites_cons, ih, applyWrite_allocations]
      simp

theorem applyWrites_nextRepaymentId (ws : List Write) (s : Store) :
    (applyWrites s ws).nextRepaymentId =
      ws.foldl (fun n w => writeNextId w n) s.nextRepaymentId := by
  induction ws generalizing s with
  | nil => simp [applyWrites]
  | cons w ws ih =>
      rw [applyWrites_cons, ih, applyWrite_nextRepaymentId]
      rfl

theorem allocSteps_of_nonpos {r : ℚ} (hr : r ≤ 0) :
    ∀ items : List ScheduleItem, allocSteps r items = []
  | [] => rfl
  | _ :: _ => by rw [allocSteps, if_pos hr]

theorem allocSteps_fst_sublist (r : ℚ) (items : List ScheduleItem) :
    List.Sublist ((allocSteps r items).map Prod.fst) items := by
  induction items generalizing r with
  | nil => simp [allocSteps]
  | cons item rest ih =>
      rw [allocSteps]
      by_cases h1 : r ≤ 0
      · simp [h1]
      · rw [if_neg h1]
        dsimp only
        by_cases h2 : item.totalDue - item.paidAmount ≤ 0
        · rw [if_pos h2]
          exact (ih r).cons _
        · rw [if_neg h2]
          exact (ih _).cons₂ _

theorem allocSteps_mem {r : ℚ} {items : List ScheduleItem} {p : ScheduleItem × ℚ}
    (hp : p ∈ allocSteps r items) :
    0 < p.2 ∧ p.2 ≤ p.1.totalDue - p.1.paidAmount := by
  induction items generalizing r with
  | nil => simp [allocSteps] at hp
  | cons item rest ih =>
      rw [allocSteps] at hp
      by_cases h1 : r ≤ 0
      · rw [if_pos h1] at hp; cases hp
      · rw [if_neg h1] at hp
        dsimp only at hp
        by_cases h2 : item.totalDue - item.paidAmount ≤ 0
        · rw [if_pos h2] at hp
          exact ih hp
        · rw [if_neg h2] at hp
          rcases List.mem_cons.mp hp with rfl | hp'
          · push_neg at h1 h2
            by_cases h3 : r ≥ item.totalDue - item.paidAmount
            · simp only [if_pos h3]
              exact ⟨h2, le_refl _⟩
            · simp only [if_neg h3]
              push_neg at h3
              exact ⟨h1, le_of_lt h3⟩
          · exact ih hp'

theorem foldl_writeItemUpdate_stepWrites (now : Int) :
    ∀ steps : List (ScheduleItem × ℚ), (steps.map fun p => p.1.id).Nodup →
    ∀ it : ScheduleItem,
      (steps.map (stepWrite now)).foldl (fun x w => writeItemUpdate w x) it =
        itemAfterSteps now steps it
  | [], _, it => by simp [itemAfterSteps]
  | p :: rest, hnd, it => by
      have hnd2 := hnd
      rw [List.map_cons, List.nodup_cons] at hnd2
      obtain ⟨hnotin, hnd'⟩ := hnd2
      simp only [List.map_cons, List.foldl_cons]
      by_cases hid : p.1.id = it.id
      · have hw : writeItemUpdate (stepWrite now p) it =
            { it with paidAmount := p.1.paidAmount + p.2,
                      status := if p.1.paidAmount + p.2 ≥ p.1.totalDue then
                          ScheduleStatus.PAID else ScheduleStatus.PARTIAL,
                      closedAt := if p.1.paidAmount + p.2 ≥ p.1.totalDue then
                          some now else none } := by
          simp only [stepWrite, writeItemUpdate]
          rw [if_pos hid.symm]
          by_cases hge : p.1.paidAmount + p.2 ≥ p.1.totalDue <;> simp [hge]
        rw [hw, foldl_writeItemUpdate_stepWrites now rest hnd']
        have hfr : rest.find? (fun q => q.1.id = it.id) = none := by
          rw [List.find?_eq_none]
          intro q hq
          simp only [decide_eq_true_eq]
          intro hqe
          exact hnotin (by
            rw [← hid] at hqe
            exact hqe ▸ List.mem_map_of_mem (fun p => p.1.id) hq)
        simp only [itemAfterSteps]
        rw [List.find?_cons_of_pos _ (by simpa using hid), hfr]
      · have hw : writeItemUpdate (stepWrite now p) it = it := by
          simp only [stepWrite, writeItemUpdate]
          rw [if_neg (fun h => hid h.symm)]
        rw [hw, foldl_writeItemUpdate_stepWrites now rest hnd']
        simp only [itemAfterSteps]
        rw [List.find?_cons_of_neg _ (by simpa using hid)]

theorem foldl_writeLoanUpdate_stepWrites (now : Int) :
    ∀ (steps : List (ScheduleItem × ℚ)) (l : Loan),
      (steps.map (stepWrite now)).foldl (fun x w => writeLoanUpdate w x) l = l
  | [], _ => rfl
  | _ :: rest, l => foldl_writeLoanUpdate_stepWrites now rest l

theorem foldl_writeNextId_stepWrites (now : Int) :
    ∀ (steps : List (ScheduleItem × ℚ)) (n : Nat),
      (steps.map (stepWrite now)).foldl (fun x w => writeNextId w x) n = n
  | [], _ => rfl
  | _ :: rest, n => foldl_writeNextId_stepWrites now rest n

theorem flatten_writeRepayments_stepWrites (now : Int)
    (steps : List (ScheduleItem × ℚ)) :
    ((steps.map (stepWrite now)).map writeRepayments).flatten = [] := by
  induction steps with
  | nil => rfl
  | cons p rest ih =>
      simp only [List.map_cons, List.flatten_cons]
      rw [ih]
      rfl

theorem flatten_writeAllocations_stepWrites (now : Int)
    (steps : List (ScheduleItem × ℚ)) :
    ((steps.map (stepWrite now)).map writeAllocations).flatten = [] := by
  induction steps with
  | nil => rfl
  | cons p rest ih =>
      simp only [List.map_cons, List.flatten_cons]
      rw [ih]
      rfl

theorem fetchOutstanding_ids_nodup (s : Store) (loanId : Nat)
    (hnd : (s.scheduleItems.map ScheduleItem.id).Nodup) :
    ((fetchOutstanding s loanId).map ScheduleItem.id).Nodup := by
  have hfil : ((s.scheduleItems.filter fun it =>
      it.loanId = loanId ∧ eligibleStatus it.status ∧ it.deletedAt = none).map
        ScheduleItem.id).Nodup :=
    ((List.filter_sublist _).map ScheduleItem.id).nodup hnd
  exact (((List.mergeSort_perm _ _).map ScheduleItem.id).symm.nodup hfil)

theorem createSteps_targets_nodup (data : CreateRepaymentData) (s : Store)
    (hnd : (s.scheduleItems.map ScheduleItem.id).Nodup) :
    ((createSteps data s).map fun p => p.1.id).Nodup := by
  have hsub : List.Sublist (((createSteps data s).map Prod.fst).map ScheduleItem.id)
      ((fetchOutstanding s data.loanId).map ScheduleItem.id) :=
    (allocSteps_fst_sublist _ _).map ScheduleItem.id
  have := hsub.nodup (fetchOutstanding_ids_nodup s data.loanId hnd)
  simpa [List.map_map, Function.comp] using this

theorem createSteps_fst_mem {data : CreateRepaymentData} {s : Store}
    {p : ScheduleItem × ℚ} (hp : p ∈ createSteps data s) :
    p.1 ∈ s.scheduleItems ∧ p.1.loanId = data.loanId ∧
      eligibleStatus p.1.status ∧ p.1.deletedAt = none := by
  have hmem : p.1 ∈ fetchOutstanding s data.loanId :=
    (allocSteps_fst_sublist _ _).mem (List.mem_map_of_mem Prod.fst hp)
  rw [fetchOutstanding, List.mem_mergeSort, List.mem_filter] at hmem
  obtain ⟨h1, h2⟩ := hmem
  simp only [decide_eq_true_eq] at h2
  exact ⟨h1, h2.1, h2.2.1, h2.2.2⟩

/-- The item-update phase of the allocation walk, as one pointwise map. -/
theorem applyWrites_stepWrites (now : Int) (steps : List (ScheduleItem × ℚ))
    (hnd : (steps.map fun p => p.1.id).Nodup) (t : Store) :
    applyWrites t (steps.map (stepWrite now)) =
      { t with scheduleItems := t.scheduleItems.map (itemAfterSteps now steps) } := by
  ext1
  · rw [applyWrites_loans]
    exact List.map_id'' (foldl_writeLoanUpdate_stepWrites now steps) _
  · rw [applyWrites_scheduleItems]
    exact List.map_congr_left fun it _ =>
      foldl_writeItemUpdate_stepWrites now steps hnd it
  · rw [applyWrites_repayments, flatten_writeRepayments_stepWrites]
    simp
  · rw [applyWrites_allocations, flatten_writeAllocations_stepWrites]
    simp
  · rw [applyWrites_nextRepaymentId]
    exact foldl_writeNextId_stepWrites now steps _

/-- The conditional `createMany` write of `allocatePayment`. -/
theorem applyWrites_insertAllocationsOpt (t : Store) (rows : List Allocation) :
    applyWrites t
      (if rows.length > 0 then [Write.insertAllocations rows] else []) =
      { t with allocations := t.allocations ++ rows } := by
  cases rows with
  | nil =>
      simp only [List.length_nil, gt_iff_lt, lt_self_iff_false, if_false, ite_false,
        List.append_nil]
      rfl
  | cons a l =>
      rw [if_pos (by simp)]
      rfl

/-- The completion check followed by its own write, as one conditional map. -/
theorem applyWrites_checkLoanCompletion (loanId : Nat) (now : Int) (t : Store) :
    applyWrites t (checkLoanCompletion loanId now t) =
      if pendingOfList t.scheduleItems loanId = 0 then
        { t with loans := t.loans.map (completeLoanUpd loanId now) }
      else t := by
  show applyWrites t
      (if pendingOfList t.scheduleItems loanId = 0 then
        [Write.updateLoan loanId .COMPLETED (some now)] else []) = _
  by_cases h : pendingOfList t.scheduleItems loanId = 0
  · rw [if_pos h, if_pos h]
    rfl
  · rw [if_neg h, if_neg h]
    rfl

/-- Net-effect characterization of a successful `createRepayment` run. -/
theorem createRepaymentRun_spec (data : CreateRepaymentData) (uid : Nat)
    (now : Int) (s : Store) (loan : Loan)
    (hfind : s.loans.find? (fun l => l.id = data.loanId) = some loan)
    (hdel : loan.deletedAt = none)
    (hact : loan.status = LoanStatus.ACTIVE)
    (hnd : (s.scheduleItems.map ScheduleItem.id).Nodup) :
    createRepaymentRun data uid now s = .ok (createEffect data uid now s) := by
  have hnd₂ := createSteps_targets_nodup data s hnd
  unfold createRepaymentRun createRepayment
  rw [hfind]
  simp only [hdel, hact, ne_eq, not_true_eq_false, if_false, ite_false, Except.map]
  refine congrArg Except.ok ?_
  have halloc : allocatePayment (newRepayment data uid now s).id data.loanId
      data.amount now (applyWrite s (Write.insertRepayment (newRepayment data uid now s))) =
      (createSteps data s).map (stepWrite now) ++
        (if ((createSteps data s).map (stepAlloc s.nextRepaymentId)).length > 0 then
          [Write.insertAllocations ((createSteps data s).map (stepAlloc s.nextRepaymentId))]
        else []) := rfl
  rw [halloc]
  rw [applyWrites_append, applyWrites_cons, applyWrites_append]
  rw [applyWrites_stepWrites now (createSteps data s) hnd₂]
  rw [applyWrites_insertAllocationsOpt]
  dsimp only [applyWrite]
  rw [applyWrites_checkLoanCompletion]
  dsimp only [applyWrite]
  simp only [createEffect]
  by_cases hpend : pendingOfList
      (List.map (itemAfterSteps now (createSteps data s)) s.scheduleItems)
      data.loanId = 0
  · rw [if_pos hpend, if_pos hpend]
  · rw [if_neg hpend, if_neg hpend]

theorem map_preserves_ids (f : ScheduleItem → ScheduleItem)
    (hf : ∀ it, (f it).id = it.id) (l : List ScheduleItem) :
    (l.map f).map ScheduleItem.id = l.map ScheduleItem.id := by
  rw [List.map_map]
  exact List.map_congr_left fun a _ => hf a

/-- Net-effect characterization of the reversal loop: when no two reversed
allocations target the same item and item ids are unique, the sequential loop
is one pointwise map. -/
theorem reverseAllocs_spec :
    ∀ (allocs : List Allocation) (s : Store),
      (s.scheduleItems.map ScheduleItem.id).Nodup →
      allocs.Pairwise (fun a b => a.scheduleItemId ≠ b.scheduleItemId) →
      reverseAllocs allocs s =
        { s with scheduleItems := s.scheduleItems.map (itemAfterReverse allocs) }
  | [], s, _, _ => by
      show s = _
      rw [@List.map_id'' _ (itemAfterReverse []) (fun _ => rfl)]
  | a :: rest, s, hnd, hpw => by
      obtain ⟨hhead, htail⟩ := List.pairwise_cons.mp hpw
      rw [reverseAllocs]
      cases hfind : s.scheduleItems.find? (fun it => it.id = a.scheduleItemId) with
      | none =>
          rw [reverseAllocs_spec rest s hnd htail]
          have hnone := List.find?_eq_none.mp hfind
          have heq : ∀ it ∈ s.scheduleItems,
              itemAfterReverse rest it = itemAfterReverse (a :: rest) it := by
            intro it hit
            have hne : ¬ ((fun b : Allocation => decide (b.scheduleItemId = it.id)) a = true) := by
              simp only [decide_eq_true_eq]
              intro h
              have hx := hnone it hit
              simp only [decide_eq_true_eq] at hx
              exact hx h.symm
            have hf : List.find? (fun b : Allocation => b.scheduleItemId = it.id) (a :: rest) =
                List.find? (fun b : Allocation => b.scheduleItemId = it.id) rest :=
              List.find?_cons_of_neg rest hne
            simp only [itemAfterReverse, hf]
          rw [List.map_congr_left heq]
      | some fit =>
          have hmem : fit ∈ s.scheduleItems := List.mem_of_find?_eq_some hfind
          have hfid : fit.id = a.scheduleItemId := by
            simpa using List.find?_some hfind
          show reverseAllocs rest (applyWrite s (Write.updateItem a.scheduleItemId
            (fit.paidAmount - a.amount)
            (if fit.paidAmount - a.amount ≤ 0 then ScheduleStatus.PENDING
             else if fit.paidAmount - a.amount < fit.totalDue then ScheduleStatus.PARTIAL
             else ScheduleStatus.PAID) none)) = _
          have happ : applyWrite s (Write.updateItem a.scheduleItemId
              (fit.paidAmount - a.amount)
              (if fit.paidAmount - a.amount ≤ 0 then ScheduleStatus.PENDING
               else if fit.paidAmount - a.amount < fit.totalDue then ScheduleStatus.PARTIAL
               else ScheduleStatus.PAID) none) =
            { s with scheduleItems := s.scheduleItems.map (fun it =>
                if it.id = a.scheduleItemId then
                  { it with paidAmount := fit.paidAmount - a.amount,
                            status := if fit.paidAmount - a.amount ≤ 0 then ScheduleStatus.PENDING
                              else if fit.paidAmount - a.amount < fit.totalDue then ScheduleStatus.PARTIAL
                              else ScheduleStatus.PAID,
                            closedAt := none }
                else it) } := rfl
          rw [happ]
          rw [reverseAllocs_spec rest _
            (by
              rw [map_preserves_ids _ (fun it => by split <;> rfl)]
              exact hnd)
            htail]
          ext1
          · rfl
          · show (s.scheduleItems.map _).map (itemAfterReverse rest) =
              s.scheduleItems.map (itemAfterReverse (a :: rest))
            rw [List.map_map]
            apply List.map_congr_left
            intro it hit
            simp only [Function.comp_apply]
            by_cases hid : it.id = a.scheduleItemId
            · have hit_eq : it = fit :=
                List.inj_on_of_nodup_map hnd hit hmem (by rw [hid, hfid])
              subst hit_eq
              rw [if_pos hid]
              have hfr : List.find?
                  (fun b : Allocation => b.scheduleItemId = it.id) rest = none := by
                rw [List.find?_eq_none]
                intro b hb
                simp only [decide_eq_true_eq]
                intro hc
                exact hhead b hb (hc.trans hid).symm
              have hposf : List.find?
                  (fun b : Allocation => b.scheduleItemId = it.id) (a :: rest) = some a :=
                List.find?_cons_of_pos rest (by simpa using hid.symm)
              simp only [itemAfterReverse]
              dsimp only
              rw [hposf, hfr]
            · rw [if_neg hid]
              have hne : ¬ ((fun b : Allocation => decide (b.scheduleItemId = it.id)) a = true) := by
                simp only [decide_eq_true_eq]
                intro h
                exact hid h.symm
              have hf : List.find? (fun b : Allocation => b.scheduleItemId = it.id) (a :: rest) =
                  List.find? (fun b : Allocation => b.scheduleItemId = it.id) rest :=
                List.find?_cons_of_neg rest hne
              simp only [itemAfterReverse]
              rw [hf]
          · rfl
          · rfl
          · rfl

theorem find?_id_map_upd (x : Nat) (f : Loan → Loan) (hf : ∀ l, (f l).id = l.id)
    (loans : List Loan) :
    (loans.map f).find? (fun l => l.id = x) =
      (loans.find? fun l => l.id = x).map f := by
  have hp : ((fun l : Loan => decide (l.id = x)) ∘ f) =
      fun l : Loan => decide (l.id = x) := by
    funext l
    simp only [Function.comp_apply, hf l]
  rw [List.find?_map, hp]

theorem itemAfterSteps_id (now : Int) (steps : List (ScheduleItem × ℚ))
    (it : ScheduleItem) : (itemAfterSteps now steps it).id = it.id := by
  unfold itemAfterSteps
  split <;> rfl

theorem itemAfterSteps_loanId (now : Int) (steps : List (ScheduleItem × ℚ))
    (it : ScheduleItem) : (itemAfterSteps now steps it).loanId = it.loanId := by
  unfold itemAfterSteps
  split <;> rfl

theorem itemAfterSteps_deletedAt (now : Int) (steps : List (ScheduleItem × ℚ))
    (it : ScheduleItem) : (itemAfterSteps now steps it).deletedAt = it.deletedAt := by
  unfold itemAfterSteps
  split <;> rfl

theorem itemAfterReverse_id (allocs : List Allocation) (it : ScheduleItem) :
    (itemAfterReverse allocs it).id = it.id := by
  unfold itemAfterReverse
  split <;> rfl

theorem itemAfterReverse_loanId (allocs : List Allocation) (it : ScheduleItem) :
    (itemAfterReverse allocs it).loanId = it.loanId := by
  unfold itemAfterReverse
  split <;> rfl

theorem itemAfterReverse_deletedAt (allocs : List Allocation) (it : ScheduleItem) :
    (itemAfterReverse allocs it).deletedAt = it.deletedAt := by
  unfold itemAfterReverse
  split <;> rfl

theorem eligibleStatus_ne_paid {st : ScheduleStatus}
    (h : eligibleStatus st = true) : st ≠ ScheduleStatus.PAID := by
  cases st <;> simp_all [eligibleStatus]

theorem forall₂_map_self {R : ScheduleItem → ScheduleItem → Prop}
    (f : ScheduleItem → ScheduleItem) :
    ∀ l : List ScheduleItem, (∀ x ∈ l, R x (f x)) → List.Forall₂ R l (l.map f)
  | [], _ => List.Forall₂.nil
  | x :: l, h => List.Forall₂.cons (h x (List.mem_cons_self x l))
      (forall₂_map_self f l fun y hy => h y (List.mem_cons_of_mem x hy))

theorem stepAllocs_find? (rid : Nat) (steps : List (ScheduleItem × ℚ)) (x : Nat) :
    (steps.map (stepAlloc rid)).find? (fun a => a.scheduleItemId = x) =
      (steps.find? fun p => p.1.id = x).map (stepAlloc rid) := by
  rw [List.find?_map]
  rfl

theorem createEffect_find_repayment (data : CreateRepaymentData) (uid : Nat)
    (now : Int) (s : Store)
    (hrb : ∀ r ∈ s.repayments, r.id < s.nextRepaymentId) :
    (createEffect data uid now s).repayments.find?
        (fun r => r.id = s.nextRepaymentId) =
      some (newRepayment data uid now s) := by
  have hpref : s.repayments.find? (fun r => r.id = s.nextRepaymentId) = none := by
    rw [List.find?_eq_none]
    intro r hr
    simp only [decide_eq_true_eq]
    exact Nat.ne_of_lt (hrb r hr)
  show ((s.repayments ++ [newRepayment data uid now s]).find?
      fun r => r.id = s.nextRepaymentId) = _
  rw [List.find?_append, hpref, Option.none_or]
  rw [List.find?_cons_of_pos _ (by simp [newRepayment])]

theorem createEffect_allocationsOf (data : CreateRepaymentData) (uid : Nat)
    (now : Int) (s : Store)
    (hab : ∀ a ∈ s.allocations, a.repaymentId < s.nextRepaymentId) :
    allocationsOf (createEffect data uid now s) s.nextRepaymentId =
      (createSteps data s).map (stepAlloc s.nextRepaymentId) := by
  show ((s.allocations ++ (createSteps data s).map (stepAlloc s.nextRepaymentId)).filter
      fun a => a.repaymentId = s.nextRepaymentId) = _
  rw [List.filter_append]
  have h1 : (s.allocations.filter fun a => a.repaymentId = s.nextRepaymentId) = [] := by
    rw [List.filter_eq_nil_iff]
    intro a ha
    simp only [decide_eq_true_eq]
    exact Nat.ne_of_lt (hab a ha)
  have h2 : (((createSteps data s).map (stepAlloc s.nextRepaymentId)).filter
      fun a => a.repaymentId = s.nextRepaymentId) =
        (createSteps data s).map (stepAlloc s.nextRepaymentId) := by
    rw [List.filter_eq_self]
    intro a ha
    obtain ⟨p, _, rfl⟩ := List.mem_map.mp ha
    simp [stepAlloc]
  rw [h1, h2, List.nil_append]

theorem find?_rid_map_upd (x : Nat) (f : Repayment → Repayment)
    (hf : ∀ r, (f r).id = r.id) (reps : List Repayment) :
    (reps.map f).find? (fun r => r.id = x) =
      (reps.find? fun r => r.id = x).map f := by
  have hp : ((fun r : Repayment => decide (r.id = x)) ∘ f) =
      fun r : Repayment => decide (r.id = x) := by
    funext r
    simp only [Function.comp_apply, hf r]
  rw [List.find?_map, hp]

theorem filter_key_singleton {α : Type} (key : α → Nat) (v : Nat) :
    ∀ l : List α, (l.map key).Nodup → ∀ x0,
      l.find? (fun x => key x = v) = some x0 →
      l.filter (fun x => key x = v) = [x0]
  | [], _, x0, hf => by cases hf
  | a :: l, hnd, x0, hf => by
      have hnd2 := hnd
      rw [List.map_cons, List.nodup_cons] at hnd2
      obtain ⟨hnotin, hnd'⟩ := hnd2
      by_cases h : key a = v
      · rw [List.find?_cons_of_pos _ (by simpa using h)] at hf
        injection hf with hf
        subst hf
        rw [List.filter_cons_of_pos (by simpa using h)]
        have : l.filter (fun x => key x = v) = [] := by
          rw [List.filter_eq_nil_iff]
          intro b hb
          simp only [decide_eq_true_eq]
          intro hbv
          exact hnotin (by
            rw [← h] at hbv
            exact hbv ▸ List.mem_map_of_mem key hb)
        rw [this]
      · rw [List.find?_cons_of_neg _ (by simpa using h)] at hf
        rw [List.filter_cons_of_neg (by simpa using h)]
        exact filter_key_singleton key v l hnd' x0 hf

theorem createRepaymentRun_ok_inv {data : CreateRepaymentData} {uid : Nat}
    {now : Int} {s s' : Store}
    (h : createRepaymentRun data uid now s = .ok s') :
    ∃ loan, s.loans.find? (fun l => l.id = data.loanId) = some loan ∧
      loan.deletedAt = none ∧ loan.status = LoanStatus.ACTIVE := by
  unfold createRepaymentRun createRepayment at h
  cases hf : s.loans.find? (fun l => l.id = data.loanId) with
  | none =>
      rw [hf] at h
      simp [Except.map] at h
  | some loan =>
      rw [hf] at h
      by_cases h1 : loan.deletedAt = none
      · by_cases h2 : loan.status = LoanStatus.ACTIVE
        · exact ⟨loan, rfl, h1, h2⟩
        · simp [h1, h2, Except.map] at h
      · simp [h1, Except.map] at h

theorem deleteRepayment_ok_inv {id : Nat} {userRole : Role}
    {userBranchId : Option Nat} {nowMs : Int} {s s' : Store}
    (h : deleteRepayment id userRole userBranchId nowMs s = .ok s') :
    ∃ rep, s.repayments.find? (fun r => r.id = id) = some rep ∧
      rep.deletedAt = none ∧ userRole ≠ Role.CREDIT_OFFICER ∧
      ¬(userRole = Role.BRANCH_MANAGER ∧ userBranchId ≠ none ∧
        ((s.loans.find? (fun l => l.id = rep.loanId)).map Loan.branchId
          ≠ userBranchId)) ∧
      ¬(((nowMs - rep.createdAt : Int) : ℚ) / (1000 * 60 * 60) > 24) := by
  unfold deleteRepayment at h
  cases hf : s.repayments.find? (fun r => r.id = id) with
  | none =>
      rw [hf] at h
      cases h
  | some rep =>
      rw [hf] at h
      by_cases h1 : rep.deletedAt = none
      · by_cases h2 : userRole = Role.CREDIT_OFFICER
        · simp [h1, h2] at h
        · by_cases h3 : userRole = Role.BRANCH_MANAGER ∧ userBranchId ≠ none ∧
            ((s.loans.find? (fun l => l.id = rep.loanId)).map Loan.branchId
              ≠ userBranchId)
          · simp [h1, h2, h3] at h
          · by_cases h4 : ((nowMs - rep.createdAt : Int) : ℚ) /
                (1000 * 60 * 60) > 24
            · simp [h1, h2, h3] at h
              push_cast at h4
              rw [if_pos h4] at h
              cases h
            · exact ⟨rep, rfl, h1, h2, h3, h4⟩
      · simp [h1] at h

theorem repaymentActive_createEffect_old (data : CreateRepaymentData)
    (uid : Nat) (now : Int) (s : Store) (r : Nat) (hr : r < s.nextRepaymentId) :
    repaymentActive (createEffect data uid now s) r = repaymentActive s r := by
  have hfr : (s.repayments ++ [newRepayment data uid now s]).find?
      (fun x => x.id = r) = s.repayments.find? (fun x => x.id = r) := by
    rw [List.find?_append]
    cases hx : s.repayments.find? (fun x => x.id = r) with
    | some x => rfl
    | none =>
        rw [Option.none_or]
        rw [List.find?_cons_of_neg _ (by
          simp only [decide_eq_true_eq]
          show ¬ s.nextRepaymentId = r
          exact (Nat.ne_of_lt hr).symm)]
        rfl
  unfold repaymentActive
  rw [show (createEffect data uid now s).repayments =
    s.repayments ++ [newRepayment data uid now s] from rfl, hfr]

theorem repaymentActive_createEffect_new (data : CreateRepaymentData)
    (uid : Nat) (now : Int) (s : Store)
    (hrb : ∀ x ∈ s.repayments, x.id < s.nextRepaymentId) :
    repaymentActive (createEffect data uid now s) s.nextRepaymentId = true := by
  unfold repaymentActive
  rw [createEffect_find_repayment data uid now s hrb]
  rfl

theorem activeAllocSum_createEffect (data : CreateRepaymentData) (uid : Nat)
    (now : Int) (s : Store)
    (hrb : ∀ x ∈ s.repayments, x.id < s.nextRepaymentId)
    (hab : ∀ a ∈ s.allocations, a.repaymentId < s.nextRepaymentId)
    (itemId : Nat) :
    activeAllocSum (createEffect data uid now s) itemId =
      activeAllocSum s itemId +
      ((((createSteps data s).map (stepAlloc s.nextRepaymentId)).filter
        fun a => a.scheduleItemId = itemId).map Allocation.amount).sum := by
  show ((((s.allocations ++
      (createSteps data s).map (stepAlloc s.nextRepaymentId)).filter fun a =>
        a.scheduleItemId = itemId ∧
          repaymentActive (createEffect data uid now s) a.repaymentId).map
      Allocation.amount).sum) = _
  rw [List.filter_append, List.map_append, List.sum_append]
  congr 1
  · have hcong : ∀ a ∈ s.allocations,
        (decide (a.scheduleItemId = itemId ∧
          repaymentActive (createEffect data uid now s) a.repaymentId = true)) =
        decide (a.scheduleItemId = itemId ∧
          repaymentActive s a.repaymentId = true) := by
      intro a ha
      rw [repaymentActive_createEffect_old data uid now s a.repaymentId (hab a ha)]
    rw [List.filter_congr hcong]
    rfl
  · have hcong : ∀ a ∈ (createSteps data s).map (stepAlloc s.nextRepaymentId),
        (decide (a.scheduleItemId = itemId ∧
          repaymentActive (createEffect data uid now s) a.repaymentId = true)) =
        decide (a.scheduleItemId = itemId) := by
      intro a ha
      have hnew : repaymentActive (createEffect data uid now s)
          a.repaymentId = true := by
        obtain ⟨p, hp, rfl⟩ := List.mem_map.mp ha
        exact repaymentActive_createEffect_new data uid now s hrb
      simp [hnew]
    rw [List.filter_congr hcong]

theorem repaymentActive_deleteEffect_old (id : Nat) (rep : Repayment)
    (nowMs : Int) (s : Store) (r : Nat) (hneq : r ≠ id) :
    repaymentActive (deleteEffect id rep nowMs s) r = repaymentActive s r := by
  unfold repaymentActive
  rw [show (deleteEffect id rep nowMs s).repayments = s.repayments.map fun x =>
    if x.id = id then { x with deletedAt := some nowMs } else x from rfl]
  rw [find?_rid_map_upd r _ (fun x => by split <;> rfl)]
  cases hx : s.repayments.find? (fun x => x.id = r) with
  | none => rfl
  | some x =>
      have hxid : x.id = r := by simpa using List.find?_some hx
      show (match some (if x.id = id then
        { x with deletedAt := some nowMs } else x) with
        | some y => decide (y.deletedAt = none)
        | none => false) = _
      rw [if_neg (by rw [hxid]; exact hneq)]

theorem repaymentActive_deleteEffect_self (id : Nat) (rep : Repayment)
    (nowMs : Int) (s : Store)
    (hfind : s.repayments.find? (fun r => r.id = id) = some rep) :
    repaymentActive (deleteEffect id rep nowMs s) id = false := by
  unfold repaymentActive
  rw [show (deleteEffect id rep nowMs s).repayments = s.repayments.map fun x =>
    if x.id = id then { x with deletedAt := some nowMs } else x from rfl]
  rw [find?_rid_map_upd id _ (fun x => by split <;> rfl), hfind]
  have hrid : rep.id = id := by simpa using List.find?_some hfind
  show (match some (if rep.id = id then
    { rep with deletedAt := some nowMs } else rep) with
    | some y => decide (y.deletedAt = none)
    | none => false) = _
  rw [if_pos hrid]
  rfl

theorem sum_split_aux (id itemId : Nat) (act act2 : Nat → Bool)
    (hid : act id = true)
    (hact2 : ∀ r, act2 r = (act r && decide (r ≠ id))) :
    ∀ l : List Allocation,
      ((l.filter fun a => a.scheduleItemId = itemId ∧
          act2 a.repaymentId = true).map Allocation.amount).sum =
      ((l.filter fun a => a.scheduleItemId = itemId ∧
          act a.repaymentId = true).map Allocation.amount).sum -
      (((l.filter fun a => a.repaymentId = id).filter
          fun a => a.scheduleItemId = itemId).map Allocation.amount).sum
  | [] => by simp
  | a :: l => by
      have ih := sum_split_aux id itemId act act2 hid hact2 l
      simp at ih
      by_cases ht : a.scheduleItemId = itemId
      · by_cases hr : a.repaymentId = id
        · have h1 : act2 id = false := by
            rw [hact2]
            simp [hid]
          simp [List.filter_cons, ht, hr, h1, hid]
          first
          | exact ih
          | (rw [ih]; ring)
          | rw [ih]
        · by_cases hA : act a.repaymentId = true
          · have h1 : act2 a.repaymentId = true := by
              rw [hact2, hA]
              simp [hr]
            simp [List.filter_cons, ht, hr, h1, hA, ih]
            try ring
          · have hA' : act a.repaymentId = false := by
              revert hA
              cases act a.repaymentId <;> simp
            have h1 : act2 a.repaymentId = false := by
              rw [hact2, hA']
              simp
            simp [List.filter_cons, ht, hr, h1, hA', ih]
            try ring
      · by_cases hr : a.repaymentId = id
        · simp [List.filter_cons, ht, hr]
          first
          | exact ih
          | (rw [ih]; ring)
          | rw [ih]
        · simp [List.filter_cons, ht, hr]
          first
          | exact ih
          | (rw [ih]; ring)
          | rw [ih]

theorem activeAllocSum_deleteEffect (id : Nat) (rep : Repayment) (nowMs : Int)
    (s : Store) (itemId : Nat)
    (hfind : s.repayments.find? (fun r => r.id = id) = some rep)
    (hdel : rep.deletedAt = none) :
    activeAllocSum (deleteEffect id rep nowMs s) itemId =
      activeAllocSum s itemId -
      (((s.allocations.filter fun a => a.repaymentId = id).filter
        fun a => a.scheduleItemId = itemId).map Allocation.amount).sum := by
  have hself : repaymentActive s id = true := by
    unfold repaymentActive
    rw [hfind]
    simp [hdel]
  have hact2 : ∀ r, repaymentActive (deleteEffect id rep nowMs s) r =
      (repaymentActive s r && decide (r ≠ id)) := by
    intro r
    by_cases hr : r = id
    · rw [hr, repaymentActive_deleteEffect_self id rep nowMs s hfind]
      simp
    · rw [repaymentActive_deleteEffect_old id rep nowMs s r hr]
      simp [hr]
  have h := sum_split_aux id itemId (repaymentActive s)
    (repaymentActive (deleteEffect id rep nowMs s)) hself hact2 s.allocations
  exact h

/-- Net-effect characterization of a successful `deleteRepayment`. -/
theorem deleteRepayment_spec (id : Nat) (userRole : Role) (userBranchId : Option Nat)
    (nowMs : Int) (s : Store) (rep : Repayment)
    (hfind : s.repayments.find? (fun r => r.id = id) = some rep)
    (hdel : rep.deletedAt = none)
    (hrole : userRole ≠ Role.CREDIT_OFFICER)
    (hbranch : ¬(userRole = Role.BRANCH_MANAGER ∧ userBranchId ≠ none ∧
      ((s.loans.find? (fun l => l.id = rep.loanId)).map Loan.branchId ≠ userBranchId)))
    (htime : ¬(((nowMs - rep.createdAt : Int) : ℚ) / (1000 * 60 * 60) > 24))
    (hnd : (s.scheduleItems.map ScheduleItem.id).Nodup)
    (hpair : (s.allocations.filter fun a => a.repaymentId = id).Pairwise
      fun a b => a.scheduleItemId ≠ b.scheduleItemId) :
    deleteRepayment id userRole userBranchId nowMs s =
      .ok (deleteEffect id rep nowMs s) := by
  unfold deleteRepayment
  rw [hfind]
  simp only [hdel, ne_eq, not_true_eq_false, if_false, ite_false]
  rw [if_neg hrole, if_neg hbranch, if_neg htime]
  rw [reverseAllocs_spec _ _ hnd hpair]
  dsimp only
  simp only [deleteEffect, allocationsOf]
  have hpc : pendingItemsCount
      { loans := s.loans,
        scheduleItems := List.map
          (itemAfterReverse (List.filter (fun a => decide (a.repaymentId = id)) s.allocations))
          s.scheduleItems,
        repayments := List.map
          (fun r => if r.id = id then { r with deletedAt := some nowMs } else r)
          s.repayments,
        allocations := s.allocations,
        nextRepaymentId := s.nextRepaymentId }
      rep.loanId =
    pendingOfList
      (s.scheduleItems.map
        (itemAfterReverse (s.allocations.filter fun a => a.repaymentId = id)))
      rep.loanId := rfl
  rw [hpc]
  by_cases hpend : pendingOfList
      (s.scheduleItems.map
        (itemAfterReverse (s.allocations.filter fun a => a.repaymentId = id)))
      rep.loanId > 0
  · rw [if_pos hpend, if_pos hpend]
    rfl
  · rw [if_neg hpend, if_neg hpend]


/-! ### Preservation of store well-formedness (the C6 invariant machinery) -/

theorem itemAfterSteps_totalDue (now : Int) (steps : List (ScheduleItem × ℚ))
    (it : ScheduleItem) : (itemAfterSteps now steps it).totalDue = it.totalDue := by
  unfold itemAfterSteps
  split <;> rfl

theorem itemAfterSteps_paid_some (now : Int) (steps : List (ScheduleItem × ℚ))
    (it : ScheduleItem) (p : ScheduleItem × ℚ)
    (hfind : steps.find? (fun q => q.1.id = it.id) = some p) :
    (itemAfterSteps now steps it).paidAmount = p.1.paidAmount + p.2 := by
  unfold itemAfterSteps
  rw [hfind]

theorem itemAfterSteps_none (now : Int) (steps : List (ScheduleItem × ℚ))
    (it : ScheduleItem)
    (hfind : steps.find? (fun q => q.1.id = it.id) = none) :
    itemAfterSteps now steps it = it := by
  unfold itemAfterSteps
  rw [hfind]

theorem itemAfterReverse_totalDue (allocs : List Allocation) (it : ScheduleItem) :
    (itemAfterReverse allocs it).totalDue = it.totalDue := by
  unfold itemAfterReverse
  split <;> rfl

theorem itemAfterReverse_paid_some (allocs : List Allocation) (it : ScheduleItem)
    (a : Allocation)
    (hfind : allocs.find? (fun x => x.scheduleItemId = it.id) = some a) :
    (itemAfterReverse allocs it).paidAmount = it.paidAmount - a.amount := by
  unfold itemAfterReverse
  rw [hfind]

theorem itemAfterReverse_none (allocs : List Allocation) (it : ScheduleItem)
    (hfind : allocs.find? (fun x => x.scheduleItemId = it.id) = none) :
    itemAfterReverse allocs it = it := by
  unfold itemAfterReverse
  rw [hfind]

/-- Within the allocation rows of one repayment, well-formedness forces the
targeted schedule items to be pairwise distinct. -/
theorem allocKey_pairwise_filter {s : Store} (wf : StoreWF s) (id : Nat) :
    (s.allocations.filter fun a => a.repaymentId = id).Pairwise
      fun a b => a.scheduleItemId ≠ b.scheduleItemId := by
  have h1 : (s.allocations.filter fun a => a.repaymentId = id).Pairwise
      fun a b => a.repaymentId ≠ b.repaymentId ∨
        a.scheduleItemId ≠ b.scheduleItemId :=
    List.Pairwise.sublist (List.filter_sublist _) wf.allocKeyPairwise
  refine List.Pairwise.imp_of_mem ?_ h1
  intro a b ha hb hR
  have ha2 : a.repaymentId = id := by
    simpa using (List.mem_filter.mp ha).2
  have hb2 : b.repaymentId = id := by
    simpa using (List.mem_filter.mp hb).2
  rcases hR with h | h
  · exact absurd (ha2.trans hb2.symm) h
  · exact h

theorem allocKey_map_nodup {s : Store} (wf : StoreWF s) (id : Nat) :
    ((s.allocations.filter fun a => a.repaymentId = id).map
      Allocation.scheduleItemId).Nodup :=
  List.pairwise_map.mpr (allocKey_pairwise_filter wf id)

/-- A successful `createRepayment` preserves store well-formedness. -/
theorem StoreWF_createEffect (data : CreateRepaymentData) (uid : Nat)
    (now : Int) (s : Store) (wf : StoreWF s) :
    StoreWF (createEffect data uid now s) := by
  have hitems : (createEffect data uid now s).scheduleItems =
      s.scheduleItems.map (itemAfterSteps now (createSteps data s)) := rfl
  have hreps : (createEffect data uid now s).repayments =
      s.repayments ++ [newRepayment data uid now s] := rfl
  have hallocs : (createEffect data uid now s).allocations =
      s.allocations ++ (createSteps data s).map (stepAlloc s.nextRepaymentId) := rfl
  have hnext : (createEffect data uid now s).nextRepaymentId =
      s.nextRepaymentId + 1 := rfl
  have hknd : (((createSteps data s).map (stepAlloc s.nextRepaymentId)).map
      Allocation.scheduleItemId).Nodup := by
    rw [List.map_map]
    exact createSteps_targets_nodup data s wf.itemIdsNodup
  refine ⟨?_, ?_, ?_, ?_, ?_, ?_, ?_, ?_, ?_⟩
  · rw [hitems, map_preserves_ids _ (itemAfterSteps_id now (createSteps data s))]
    exact wf.itemIdsNodup
  · rw [hreps, List.map_append, List.nodup_append]
    refine ⟨wf.repayIdsNodup, List.nodup_singleton _, ?_⟩
    intro x hx hx2
    obtain ⟨r, hr, rfl⟩ := List.mem_map.mp hx
    have hxid : r.id = s.nextRepaymentId := by
      simpa [newRepayment] using hx2
    exact absurd hxid (Nat.ne_of_lt (wf.repayIdsBound r hr))
  · rw [hreps, hnext]
    intro r hr
    rcases List.mem_append.mp hr with h | h
    · exact Nat.lt_succ_of_lt (wf.repayIdsBound r h)
    · rw [List.mem_singleton] at h
      subst h
      exact Nat.lt_succ_self _
  · rw [hallocs, hnext]
    intro a ha
    rcases List.mem_append.mp ha with h | h
    · exact Nat.lt_succ_of_lt (wf.allocRepayBound a h)
    · obtain ⟨p, hp, rfl⟩ := List.mem_map.mp h
      exact Nat.lt_succ_self _
  · rw [hallocs]
    intro a ha
    rcases List.mem_append.mp ha with h | h
    · exact wf.allocPos a h
    · obtain ⟨p, hp, rfl⟩ := List.mem_map.mp h
      have hp' : p ∈ allocSteps data.amount (fetchOutstanding s data.loanId) := hp
      exact (allocSteps_mem hp').1
  · rw [hallocs, List.pairwise_append]
    refine ⟨wf.allocKeyPairwise, ?_, ?_⟩
    · rw [List.pairwise_map]
      have h2 : (createSteps data s).Pairwise fun p q => p.1.id ≠ q.1.id :=
        List.pairwise_map.mp (createSteps_targets_nodup data s wf.itemIdsNodup)
      exact h2.imp fun h => Or.inr h
    · intro a ha b hb
      obtain ⟨p, hp, rfl⟩ := List.mem_map.mp hb
      exact Or.inl (Nat.ne_of_lt (wf.allocRepayBound a ha))
  · intro it' hit'
    rw [hitems] at hit'
    obtain ⟨it, hit, rfl⟩ := List.mem_map.mp hit'
    rw [itemAfterSteps_id]
    rw [activeAllocSum_createEffect data uid now s wf.repayIdsBound
      wf.allocRepayBound it.id]
    cases hfind : (createSteps data s).find? (fun q => q.1.id = it.id) with
    | some p =>
        have hpmem : p ∈ createSteps data s := List.mem_of_find?_eq_some hfind
        have hpid : p.1.id = it.id := by
          simpa using List.find?_some hfind
        have hp1 : p.1 = it :=
          List.inj_on_of_nodup_map wf.itemIdsNodup
            (createSteps_fst_mem hpmem).1 hit hpid
        have hfilter : (((createSteps data s).map
            (stepAlloc s.nextRepaymentId)).filter
              fun a => a.scheduleItemId = it.id) =
            [stepAlloc s.nextRepaymentId p] :=
          filter_key_singleton Allocation.scheduleItemId it.id _ hknd _
            (by rw [stepAllocs_find?, hfind]; rfl)
        rw [itemAfterSteps_paid_some now (createSteps data s) it p hfind, hfilter]
        rw [hp1, wf.paidMatches it hit]
        simp [stepAlloc]
    | none =>
        have hfilter : (((createSteps data s).map
            (stepAlloc s.nextRepaymentId)).filter
              fun a => a.scheduleItemId = it.id) = [] := by
          rw [List.filter_eq_nil_iff]
          intro a ha
          have hnone : ((createSteps data s).map
              (stepAlloc s.nextRepaymentId)).find?
                (fun a => a.scheduleItemId = it.id) = none := by
            rw [stepAllocs_find?, hfind]
            rfl
          simpa using List.find?_eq_none.mp hnone a ha
        rw [itemAfterSteps_none now (createSteps data s) it hfind, hfilter]
        simpa using wf.paidMatches it hit
  · intro it' hit'
    rw [hitems] at hit'
    obtain ⟨it, hit, rfl⟩ := List.mem_map.mp hit'
    cases hfind : (createSteps data s).find? (fun q => q.1.id = it.id) with
    | some p =>
        rw [itemAfterSteps_paid_some now (createSteps data s) it p hfind]
        have hpmem : p ∈ createSteps data s := List.mem_of_find?_eq_some hfind
        have h1 := (allocSteps_mem (show p ∈ allocSteps data.amount
          (fetchOutstanding s data.loanId) from hpmem)).1
        have h2 := wf.paidNonneg p.1 (createSteps_fst_mem hpmem).1
        linarith
    | none =>
        rw [itemAfterSteps_none now (createSteps data s) it hfind]
        exact wf.paidNonneg it hit
  · intro it' hit'
    rw [hitems] at hit'
    obtain ⟨it, hit, rfl⟩ := List.mem_map.mp hit'
    cases hfind : (createSteps data s).find? (fun q => q.1.id = it.id) with
    | some p =>
        rw [itemAfterSteps_paid_some now (createSteps data s) it p hfind,
          itemAfterSteps_totalDue]
        have hpmem : p ∈ createSteps data s := List.mem_of_find?_eq_some hfind
        have hpid : p.1.id = it.id := by
          simpa using List.find?_some hfind
        have hp1 : p.1 = it :=
          List.inj_on_of_nodup_map wf.itemIdsNodup
            (createSteps_fst_mem hpmem).1 hit hpid
        have h1 := (allocSteps_mem (show p ∈ allocSteps data.amount
          (fetchOutstanding s data.loanId) from hpmem)).2
        rw [hp1] at h1 ⊢
        linarith
    | none =>
        rw [itemAfterSteps_none now (createSteps data s) it hfind]
        exact wf.paidLe it hit

/-- A successful `deleteRepayment` preserves store well-formedness. -/
theorem StoreWF_deleteEffect (id : Nat) (rep : Repayment) (nowMs : Int)
    (s : Store)
    (hfind : s.repayments.find? (fun r => r.id = id) = some rep)
    (hdel : rep.deletedAt = none) (wf : StoreWF s) :
    StoreWF (deleteEffect id rep nowMs s) := by
  have hitems : (deleteEffect id rep nowMs s).scheduleItems =
      s.scheduleItems.map (itemAfterReverse (allocationsOf s id)) := rfl
  have hreps : (deleteEffect id rep nowMs s).repayments =
      s.repayments.map (fun r =>
        if r.id = id then { r with deletedAt := some nowMs } else r) := rfl
  have hallocs : (deleteEffect id rep nowMs s).allocations = s.allocations := rfl
  have hnext : (deleteEffect id rep nowMs s).nextRepaymentId =
      s.nextRepaymentId := rfl
  have hknd : ((s.allocations.filter fun a => a.repaymentId = id).map
      Allocation.scheduleItemId).Nodup := allocKey_map_nodup wf id
  have hact : repaymentActive s id = true := by
    unfold repaymentActive
    rw [hfind]
    simp [hdel]
  refine ⟨?_, ?_, ?_, ?_, ?_, ?_, ?_, ?_, ?_⟩
  · rw [hitems, map_preserves_ids _ (itemAfterReverse_id (allocationsOf s id))]
    exact wf.itemIdsNodup
  · rw [hreps]
    have hids : ((s.repayments.map fun r =>
        if r.id = id then { r with deletedAt := some nowMs } else r).map
          Repayment.id) = s.repayments.map Repayment.id := by
      rw [List.map_map]
      refine List.map_congr_left fun r _ => ?_
      by_cases h : r.id = id <;> simp [h]
    rw [hids]
    exact wf.repayIdsNodup
  · rw [hreps, hnext]
    intro r hr
    obtain ⟨r0, hr0, rfl⟩ := List.mem_map.mp hr
    have hid0 : (if r0.id = id then
        { r0 with deletedAt := some nowMs } else r0).id = r0.id := by
      by_cases h : r0.id = id <;> simp [h]
    rw [hid0]
    exact wf.repayIdsBound r0 hr0
  · rw [hallocs, hnext]
    exact wf.allocRepayBound
  · rw [hallocs]
    exact wf.allocPos
  · rw [hallocs]
    exact wf.allocKeyPairwise
  · intro it' hit'
    rw [hitems] at hit'
    obtain ⟨it, hit, rfl⟩ := List.mem_map.mp hit'
    rw [itemAfterReverse_id]
    rw [activeAllocSum_deleteEffect id rep nowMs s it.id hfind hdel]
    cases hf : (s.allocations.filter fun a => a.repaymentId = id).find?
        (fun x => x.scheduleItemId = it.id) with
    | some a =>
        have hfilter : ((s.allocations.filter fun a => a.repaymentId = id).filter
            fun x => x.scheduleItemId = it.id) = [a] :=
          filter_key_singleton Allocation.scheduleItemId it.id _ hknd a hf
        rw [itemAfterReverse_paid_some (allocationsOf s id) it a hf, hfilter]
        rw [wf.paidMatches it hit]
        simp
    | none =>
        have hfilter : ((s.allocations.filter fun a => a.repaymentId = id).filter
            fun x => x.scheduleItemId = it.id) = [] := by
          rw [List.filter_eq_nil_iff]
          intro x hx
          simpa using List.find?_eq_none.mp hf x hx
        rw [itemAfterReverse_none (allocationsOf s id) it hf, hfilter]
        rw [wf.paidMatches it hit]
        simp
  · intro it' hit'
    rw [hitems] at hit'
    obtain ⟨it, hit, rfl⟩ := List.mem_map.mp hit'
    cases hf : (s.allocations.filter fun a => a.repaymentId = id).find?
        (fun x => x.scheduleItemId = it.id) with
    | some a =>
        rw [itemAfterReverse_paid_some (allocationsOf s id) it a hf]
        have hamem : a ∈ s.allocations.filter fun a => a.repaymentId = id :=
          List.mem_of_find?_eq_some hf
        have hamem0 : a ∈ s.allocations := (List.mem_filter.mp hamem).1
        have harid : a.repaymentId = id := by
          simpa using (List.mem_filter.mp hamem).2
        have haitem : a.scheduleItemId = it.id := by
          simpa using List.find?_some hf
        have hamem2 : a ∈ s.allocations.filter fun x =>
            x.scheduleItemId = it.id ∧ repaymentActive s x.repaymentId = true := by
          rw [List.mem_filter]
          refine ⟨hamem0, ?_⟩
          simp only [decide_eq_true_eq]
          exact ⟨haitem, by rw [harid]; exact hact⟩
        have hle : a.amount ≤ activeAllocSum s it.id := by
          refine List.single_le_sum ?_ a.amount
            (List.mem_map_of_mem Allocation.amount hamem2)
          intro x hx
          obtain ⟨b, hb, rfl⟩ := List.mem_map.mp hx
          exact le_of_lt (wf.allocPos b (List.mem_filter.mp hb).1)
        have hpm := wf.paidMatches it hit
        linarith
    | none =>
        rw [itemAfterReverse_none (allocationsOf s id) it hf]
        exact wf.paidNonneg it hit
  · intro it' hit'
    rw [hitems] at hit'
    obtain ⟨it, hit, rfl⟩ := List.mem_map.mp hit'
    cases hf : (s.allocations.filter fun a => a.repaymentId = id).find?
        (fun x => x.scheduleItemId = it.id) with
    | some a =>
        rw [itemAfterReverse_paid_some (allocationsOf s id) it a hf,
          itemAfterReverse_totalDue]
        have hamem : a ∈ s.allocations.filter fun a => a.repaymentId = id :=
          List.mem_of_find?_eq_some hf
        have hpos := wf.allocPos a (List.mem_filter.mp hamem).1
        have hple := wf.paidLe it hit
        linarith
    | none =>
        rw [itemAfterReverse_none (allocationsOf s id) it hf]
        exact wf.paidLe it hit

/-- Every successful engine operation preserves store well-formedness. -/
theorem StoreWF_step {s s' : Store} (wf : StoreWF s) (h : Step s s') :
    StoreWF s' := by
  cases h with
  | create data uid now h =>
      obtain ⟨loan, hfind, hdel, hact⟩ := createRepaymentRun_ok_inv h
      rw [createRepaymentRun_spec data uid now s loan hfind hdel hact
        wf.itemIdsNodup] at h
      injection h with h2
      rw [← h2]
      exact StoreWF_createEffect data uid now s wf
  | delete id role branch now h =>
      obtain ⟨rep, hfind, hdel, hrole, hbranch, htime⟩ := deleteRepayment_ok_inv h
      rw [deleteRepayment_spec id role branch now s rep hfind hdel hrole
        hbranch htime wf.itemIdsNodup (allocKey_pairwise_filter wf id)] at h
      injection h with h2
      rw [← h2]
      exact StoreWF_deleteEffect id rep now s hfind hdel wf

/-- Well-formedness is preserved along any sequence of successful operations. -/
theorem StoreWF_reachable {s₀ s : Store} (wf : StoreWF s₀)
    (h : Reachable s₀ s) : StoreWF s := by
  induction h with
  | refl => exact wf
  | tail _ hstep ih => exact StoreWF_step ih hstep


end RepaymentService

/-! ## Claim theorems -/

namespace RepaymentService

unseal Rat.add Rat.sub List.merge List.mergeSort in
/-- C7: allocation walks the outstanding items in due order giving each
`min(remaining, outstanding)`: on a loan with two PENDING items of `totalDue`
50 due earlier and 50 due later, a payment of 70 leaves item 1 PAID with
`paidAmount` 50, item 2 PARTIAL with `paidAmount` 20, and the loan ACTIVE. -/
theorem C7_partial_distribution :
    (createRepaymentRun (exData 70) 5 1000 exStore2).toOption.map
        (fun st =>
          ((getItem st 1).map fun it => (it.paidAmount, it.status),
           (getItem st 2).map fun it => (it.paidAmount, it.status),
           (getLoan st 10).map Loan.status)) =
      some (some (50, .PAID), some (20, .PARTIAL), some .ACTIVE) := by
  decide

unseal Rat.add Rat.sub List.merge List.mergeSort in
/-- C8: overpayment is not allocated: on a loan with one PENDING item of
`totalDue` 50, a payment of 80 leaves the item PAID at 50, the loan COMPLETED,
exactly one allocation row of 50, and the Repayment row still records the full
amount 80. -/
theorem C8_overpayment :
    (createRepaymentRun (exData 80) 5 1000 exStore1).toOption.map
        (fun st =>
          ((getItem st 1).map fun it => (it.paidAmount, it.status),
           (getLoan st 10).map Loan.status,
           allocationsOf st 0,
           (getRepayment st 0).map Repayment.amount)) =
      some (some (50, .PAID), some .COMPLETED,
            [{ repaymentId := 0, scheduleItemId := 1, amount := 50 }],
            some 80) := by
  decide

unseal Rat.add Rat.sub Rat.mul Rat.inv List.merge List.mergeSort in
/-- C1 (counterexample): reversal does not restore state bit-for-bit.
First run: a payment of 20 against a loan whose only item is OVERDUE, then its
reversal, leaves the item PENDING — not the pre-payment OVERDUE.  Second run: a
payment against an ACTIVE loan whose items are all already PAID flips the loan
to COMPLETED while allocating nothing, and its reversal leaves the loan
COMPLETED — the pre-payment ACTIVE status is not restored. -/
theorem C1_reversal_counterexample :
    (((createRepaymentRun (exData 20) 5 1000 exStoreOverdue).toOption.bind
        fun st => (deleteRepayment 0 .ADMIN none 1000 st).toOption).map
      fun st => (getItem st 1).map fun it => (it.paidAmount, it.status)) =
        some (some (0, .PENDING)) ∧
    exItemOverdue.status = .OVERDUE ∧
    (((createRepaymentRun (exData 5) 5 1000 exStoreAllPaid).toOption.bind
        fun st => (deleteRepayment 0 .ADMIN none 1000 st).toOption).map
      fun st => (getLoan st 10).map Loan.status) = some (some .COMPLETED) ∧
    exLoan.status = .ACTIVE := by
  refine ⟨by decide, rfl, by decide, rfl⟩

unseal Rat.add Rat.sub List.merge List.mergeSort in
/-- C2 (counterexample): `createRepayment` does not validate the amount: a call
with amount 0 against an ACTIVE, non-deleted loan does not fail — it succeeds
and persists a Repayment row whose amount is 0. -/
theorem C2_invalid_amount_counterexample :
    (createRepaymentRun (exData 0) 5 1000 exStore2).toOption.map
        (fun st => (getRepayment st 0).map Repayment.amount) = some (some 0) ∧
    (exData 0).amount ≤ 0 := by
  refine ⟨by decide, by decide⟩

unseal Rat.add Rat.sub List.merge List.mergeSort in
/-- C3 (counterexample): the allocation fetch orders by due date only — equal
due dates are *not* tie-broken by sequence number.  With two equal-due-date
PENDING items stored with the sequence-2 item first, the fetch returns the
sequence-2 item first and a payment of 30 is consumed entirely by it, leaving
the sequence-1 item untouched. -/
theorem C3_tiebreak_counterexample :
    fetchOutstanding exStoreTie 10 = [exTieItem2, exTieItem1] ∧
    exTieItem2.dueDate = exTieItem1.dueDate ∧
    exTieItem1.sequence < exTieItem2.sequence ∧
    allocSteps 30 (fetchOutstanding exStoreTie 10) = [(exTieItem2, 30)] := by
  refine ⟨by decide, rfl, by decide, by decide⟩

unseal Rat.add Rat.sub Rat.mul Rat.inv List.merge List.mergeSort in
/-- C4 (counterexample): the reversal recheck does not test the loan's current
status: deleting the repayment of a DEFAULTED loan whose item reverts to
non-PAID transitions the loan to ACTIVE. -/
theorem C4_reactivation_counterexample :
    (deleteRepayment 0 .ADMIN none 1000 exStoreDefaulted).toOption.map
        (fun st => (getLoan st 10).map fun l => (l.status, l.closedAt)) =
      some (some (.ACTIVE, none)) ∧
    exLoanDefaulted.status = .DEFAULTED := by
  refine ⟨by decide, rfl⟩

unseal Rat.add Rat.sub List.merge List.mergeSort in
/-- C5 (counterexample): `createRepayment` issues its four writes as
individually-committed store operations with no transaction: committing only
the first of them leaves a store holding the Repayment row (amount 70) with no
allocation rows and the schedule items untouched, while three writes are still
outstanding — observable partial state that is never rolled back. -/
theorem C5_atomicity_counterexample :
    (createRepayment (exData 70) 5 1000 exStore2).toOption.map List.length =
      some 4 ∧
    (createRepayment (exData 70) 5 1000 exStore2).toOption.map
        (fun tr => (applyWrites exStore2 (tr.take 1)).repayments.map
          Repayment.amount) = some [70] ∧
    (createRepayment (exData 70) 5 1000 exStore2).toOption.map
        (fun tr => (applyWrites exStore2 (tr.take 1)).allocations) = some [] ∧
    (createRepayment (exData 70) 5 1000 exStore2).toOption.map
        (fun tr => (applyWrites exStore2 (tr.take 1)).scheduleItems) =
      some [exItem1, exItem2] := by
  refine ⟨by decide, by decide, by decide, by decide⟩

/-- C10: a `createRepayment` call with a non-positive amount against an ACTIVE,
non-deleted loan still succeeds and persists a Repayment row carrying that
amount, while the allocation walk exits immediately: no allocation row is
created and every schedule item is left exactly unchanged. -/
theorem C10_nonpositive_frame (data : CreateRepaymentData) (uid : Nat)
    (now : Int) (s : Store) (loan : Loan)
    (hfind : s.loans.find? (fun l => l.id = data.loanId) = some loan)
    (hdel : loan.deletedAt = none)
    (hact : loan.status = LoanStatus.ACTIVE)
    (hnd : (s.scheduleItems.map ScheduleItem.id).Nodup)
    (hamt : data.amount ≤ 0) :
    createRepaymentRun data uid now s = .ok (createEffect data uid now s) ∧
    (createEffect data uid now s).scheduleItems = s.scheduleItems ∧
    (createEffect data uid now s).allocations = s.allocations ∧
    (createEffect data uid now s).repayments =
      s.repayments ++ [newRepayment data uid now s] ∧
    (newRepayment data uid now s).amount = data.amount := by
  have hsteps : createSteps data s = [] := allocSteps_of_nonpos hamt _
  refine ⟨createRepaymentRun_spec data uid now s loan hfind hdel hact hnd,
    ?_, ?_, rfl, rfl⟩
  · show s.scheduleItems.map (itemAfterSteps now (createSteps data s)) = _
    rw [hsteps, @List.map_id'' _ (itemAfterSteps now []) (fun _ => rfl)]
  · show s.allocations ++ (createSteps data s).map (stepAlloc s.nextRepaymentId) = _
    rw [hsteps, List.map_nil, List.append_nil]

unseal Rat.add Rat.sub List.merge List.mergeSort in
/-- C10 (witness): the zero-amount payment against the two-item store. -/
theorem C10_nonpositive_frame_witness :
    createRepaymentRun (exData 0) 5 1000 exStore2 =
      .ok (createEffect (exData 0) 5 1000 exStore2) ∧
    (createEffect (exData 0) 5 1000 exStore2).scheduleItems =
      exStore2.scheduleItems ∧
    (createEffect (exData 0) 5 1000 exStore2).allocations =
      exStore2.allocations ∧
    (createEffect (exData 0) 5 1000 exStore2).repayments =
      exStore2.repayments ++ [newRepayment (exData 0) 5 1000 exStore2] ∧
    (newRepayment (exData 0) 5 1000 exStore2).amount = (exData 0).amount :=
  C10_nonpositive_frame (exData 0) 5 1000 exStore2 exLoan rfl rfl rfl
    (by decide) (by decide)

/-- C2 (amended): `createRepayment` performs no amount validation at all — a
call with a non-positive amount against an ACTIVE, non-deleted loan does not
fail with any error; it succeeds and persists a Repayment row recording the
supplied amount (any InvalidAmount rejection happens only in the route-level
request validator, outside `createRepayment`). -/
theorem C2_no_amount_validation (data : CreateRepaymentData) (uid : Nat)
    (now : Int) (s : Store) (loan : Loan)
    (hfind : s.loans.find? (fun l => l.id = data.loanId) = some loan)
    (hdel : loan.deletedAt = none)
    (hact : loan.status = LoanStatus.ACTIVE)
    (hnd : (s.scheduleItems.map ScheduleItem.id).Nodup)
    (hrb : ∀ r ∈ s.repayments, r.id < s.nextRepaymentId)
    (hamt : data.amount ≤ 0) :
    createRepaymentRun data uid now s = .ok (createEffect data uid now s) ∧
    getRepayment (createEffect data uid now s) s.nextRepaymentId =
      some (newRepayment data uid now s) ∧
    (newRepayment data uid now s).amount = data.amount := by
  refine ⟨createRepaymentRun_spec data uid now s loan hfind hdel hact hnd,
    ?_, rfl⟩
  have hpref : s.repayments.find? (fun r => r.id = s.nextRepaymentId) = none := by
    rw [List.find?_eq_none]
    intro r hr
    simp only [decide_eq_true_eq]
    exact Nat.ne_of_lt (hrb r hr)
  show ((s.repayments ++ [newRepayment data uid now s]).find?
      fun r => r.id = s.nextRepaymentId) = _
  rw [List.find?_append, hpref, Option.none_or]
  rw [List.find?_cons_of_pos _ (by simp [newRepayment])]

unseal Rat.add Rat.sub List.merge List.mergeSort in
/-- C2 (witness): a payment of −5 against the two-item store is accepted and
recorded. -/
theorem C2_no_amount_validation_witness :
    createRepaymentRun (exData (-5)) 5 1000 exStore2 =
      .ok (createEffect (exData (-5)) 5 1000 exStore2) ∧
    getRepayment (createEffect (exData (-5)) 5 1000 exStore2)
        exStore2.nextRepaymentId =
      some (newRepayment (exData (-5)) 5 1000 exStore2) ∧
    (newRepayment (exData (-5)) 5 1000 exStore2).amount = (exData (-5)).amount :=
  C2_no_amount_validation (exData (-5)) 5 1000 exStore2 exLoan rfl rfl rfl
    (by decide) (by decide) (by decide)

/-- C4 (amended): after reversal, the recheck looks only at the schedule items:
whenever some non-deleted item of the loan is not PAID, the loan row is set to
ACTIVE with `closedAt` cleared — *regardless of the loan's previous status*
(a DEFAULTED or WRITTEN_OFF loan is reactivated too); when every item is PAID
the loan row is left untouched. -/
theorem C4_reactivation_amended (id : Nat) (userRole : Role)
    (userBranchId : Option Nat) (nowMs : Int) (s : Store) (rep : Repayment)
    (hfind : s.repayments.find? (fun r => r.id = id) = some rep)
    (hdel : rep.deletedAt = none)
    (hrole : userRole ≠ Role.CREDIT_OFFICER)
    (hbranch : ¬(userRole = Role.BRANCH_MANAGER ∧ userBranchId ≠ none ∧
      ((s.loans.find? (fun l => l.id = rep.loanId)).map Loan.branchId ≠ userBranchId)))
    (htime : ¬(((nowMs - rep.createdAt : Int) : ℚ) / (1000 * 60 * 60) > 24))
    (hnd : (s.scheduleItems.map ScheduleItem.id).Nodup)
    (hpair : (s.allocations.filter fun a => a.repaymentId = id).Pairwise
      fun a b => a.scheduleItemId ≠ b.scheduleItemId) :
    deleteRepayment id userRole userBranchId nowMs s =
      .ok (deleteEffect id rep nowMs s) ∧
    (pendingOfList (s.scheduleItems.map (itemAfterReverse (allocationsOf s id)))
        rep.loanId > 0 →
      (deleteEffect id rep nowMs s).loans =
        s.loans.map (reactivateLoanUpd rep.loanId)) ∧
    (pendingOfList (s.scheduleItems.map (itemAfterReverse (allocationsOf s id)))
        rep.loanId = 0 →
      (deleteEffect id rep nowMs s).loans = s.loans) := by
  refine ⟨deleteRepayment_spec id userRole userBranchId nowMs s rep hfind hdel
    hrole hbranch htime hnd hpair, ?_, ?_⟩
  · intro h
    show (if pendingOfList (s.scheduleItems.map
        (itemAfterReverse (allocationsOf s id))) rep.loanId > 0 then
          s.loans.map (reactivateLoanUpd rep.loanId) else s.loans) = _
    rw [if_pos h]
  · intro h
    show (if pendingOfList (s.scheduleItems.map
        (itemAfterReverse (allocationsOf s id))) rep.loanId > 0 then
          s.loans.map (reactivateLoanUpd rep.loanId) else s.loans) = _
    rw [if_neg (by rw [h]; exact lt_irrefl 0)]

unseal Rat.add Rat.sub Rat.mul Rat.inv List.merge List.mergeSort in
/-- C4 (witness): deleting the repayment of the DEFAULTED-loan store reactivates
its loan. -/
theorem C4_reactivation_amended_witness :
    deleteRepayment 0 .ADMIN none 1000 exStoreDefaulted =
      .ok (deleteEffect 0 exRepayment20 1000 exStoreDefaulted) ∧
    (pendingOfList (exStoreDefaulted.scheduleItems.map
        (itemAfterReverse (allocationsOf exStoreDefaulted 0)))
        exRepayment20.loanId > 0 →
      (deleteEffect 0 exRepayment20 1000 exStoreDefaulted).loans =
        exStoreDefaulted.loans.map (reactivateLoanUpd exRepayment20.loanId)) ∧
    (pendingOfList (exStoreDefaulted.scheduleItems.map
        (itemAfterReverse (allocationsOf exStoreDefaulted 0)))
        exRepayment20.loanId = 0 →
      (deleteEffect 0 exRepayment20 1000 exStoreDefaulted).loans =
        exStoreDefaulted.loans) :=
  C4_reactivation_amended 0 .ADMIN none 1000 exStoreDefaulted exRepayment20
    rfl rfl (by decide) (by decide) (by decide) (by decide) (by decide)

/-- C5 (amended): `createRepayment` is *not* all-or-nothing — the source opens
no transaction, so each returned write commits individually.  If execution
halts after the first write (the Repayment insert), the store permanently holds
the new Repayment row while its allocation rows are absent and the schedule
items are untouched; nothing rolls the insert back. -/
theorem C5_no_transaction (data : CreateRepaymentData) (uid : Nat) (now : Int)
    (s : Store) (loan : Loan)
    (hfind : s.loans.find? (fun l => l.id = data.loanId) = some loan)
    (hdel : loan.deletedAt = none)
    (hact : loan.status = LoanStatus.ACTIVE)
    (hab : ∀ a ∈ s.allocations, a.repaymentId < s.nextRepaymentId) :
    ∀ tr, createRepayment data uid now s = .ok tr →
      applyWrites s (tr.take 1) =
        { s with repayments := s.repayments ++ [newRepayment data uid now s],
                 nextRepaymentId := s.nextRepaymentId + 1 } ∧
      allocationsOf (applyWrites s (tr.take 1))
        (newRepayment data uid now s).id = [] := by
  intro tr htr
  unfold createRepayment at htr
  rw [hfind] at htr
  simp only [hdel, hact, ne_eq, not_true_eq_false, if_false, ite_false] at htr
  injection htr with htr
  subst htr
  refine ⟨rfl, ?_⟩
  show s.allocations.filter (fun a => a.repaymentId = s.nextRepaymentId) = []
  rw [List.filter_eq_nil_iff]
  intro a ha
  simp only [decide_eq_true_eq]
  exact Nat.ne_of_lt (hab a ha)

unseal Rat.add Rat.sub List.merge List.mergeSort in
/-- C5 (witness): the 70-payment against the two-item store; committing only the
first of its four writes leaves the Repayment row with no allocations. -/
theorem C5_no_transaction_witness :
    applyWrites exStore2
        ((Write.insertRepayment { exRepayment20 with amount := 70 } ::
          Write.updateItem 1 50 ScheduleStatus.PAID (some 1000) ::
          Write.updateItem 2 20 ScheduleStatus.PARTIAL none ::
          [Write.insertAllocations
            [{ repaymentId := 0, scheduleItemId := 1, amount := 50 },
             { repaymentId := 0, scheduleItemId := 2, amount := 20 }]]).take 1) =
      { exStore2 with
          repayments := exStore2.repayments ++
            [newRepayment (exData 70) 5 1000 exStore2],
          nextRepaymentId := exStore2.nextRepaymentId + 1 } ∧
    allocationsOf
      (applyWrites exStore2
        ((Write.insertRepayment { exRepayment20 with amount := 70 } ::
          Write.updateItem 1 50 ScheduleStatus.PAID (some 1000) ::
          Write.updateItem 2 20 ScheduleStatus.PARTIAL none ::
          [Write.insertAllocations
            [{ repaymentId := 0, scheduleItemId := 1, amount := 50 },
             { repaymentId := 0, scheduleItemId := 2, amount := 20 }]]).take 1))
      (newRepayment (exData 70) 5 1000 exStore2).id = [] :=
  C5_no_transaction (exData 70) 5 1000 exStore2 exLoan rfl rfl rfl (by decide)
    _ rfl

/-- C9: after a successful `createRepayment`, the loan was transitioned to
COMPLETED with `closedAt` stamped exactly when the count of its non-deleted,
non-PAID schedule items is zero; when the count is non-zero the loan row is
unchanged (still the ACTIVE pre-payment row). -/
theorem C9_completion_iff (data : CreateRepaymentData) (uid : Nat) (now : Int)
    (s : Store) (loan : Loan)
    (hfind : s.loans.find? (fun l => l.id = data.loanId) = some loan)
    (hdel : loan.deletedAt = none)
    (hact : loan.status = LoanStatus.ACTIVE)
    (hnd : (s.scheduleItems.map ScheduleItem.id).Nodup) :
    ∀ s', createRepaymentRun data uid now s = .ok s' →
      ((getLoan s' data.loanId =
          some { loan with status := .COMPLETED, closedAt := some now }) ↔
        pendingItemsCount s' data.loanId = 0) ∧
      (pendingItemsCount s' data.loanId ≠ 0 →
        getLoan s' data.loanId = some loan) := by
  intro s' hs'
  rw [createRepaymentRun_spec data uid now s loan hfind hdel hact hnd] at hs'
  injection hs' with hs'
  subst hs'
  have hid : loan.id = data.loanId := by
    simpa using List.find?_some hfind
  have hpc : pendingItemsCount (createEffect data uid now s) data.loanId =
      pendingOfList (s.scheduleItems.map (itemAfterSteps now (createSteps data s)))
        data.loanId := rfl
  rw [hpc]
  by_cases hzero : pendingOfList
      (s.scheduleItems.map (itemAfterSteps now (createSteps data s)))
      data.loanId = 0
  · have hloans : (createEffect data uid now s).loans =
        s.loans.map (completeLoanUpd data.loanId now) := by
      show (if pendingOfList (s.scheduleItems.map
          (itemAfterSteps now (createSteps data s))) data.loanId = 0 then
            s.loans.map (completeLoanUpd data.loanId now) else s.loans) = _
      rw [if_pos hzero]
    have hget : getLoan (createEffect data uid now s) data.loanId =
        some { loan with status := .COMPLETED, closedAt := some now } := by
      show ((createEffect data uid now s).loans.find?
        fun l => l.id = data.loanId) = _
      rw [hloans, find?_id_map_upd _ _ (fun l => by
        show (if l.id = data.loanId then _ else l).id = l.id
        split <;> rfl), hfind]
      show some (completeLoanUpd data.loanId now loan) = _
      rw [completeLoanUpd, if_pos hid]
    exact ⟨⟨fun _ => hzero, fun _ => hget⟩, fun h => absurd hzero h⟩
  · have hloans : (createEffect data uid now s).loans = s.loans := by
      show (if pendingOfList (s.scheduleItems.map
          (itemAfterSteps now (createSteps data s))) data.loanId = 0 then
            s.loans.map (completeLoanUpd data.loanId now) else s.loans) = _
      rw [if_neg hzero]
    have hget : getLoan (createEffect data uid now s) data.loanId = some loan := by
      show ((createEffect data uid now s).loans.find?
        fun l => l.id = data.loanId) = _
      rw [hloans]
      exact hfind
    refine ⟨⟨fun hcl => ?_, fun h => absurd h hzero⟩, fun _ => hget⟩
    rw [hget] at hcl
    injection hcl with hcl
    have := congrArg Loan.status hcl
    rw [hact] at this
    cases this

unseal Rat.add Rat.sub List.merge List.mergeSort in
/-- C9 (witness): the single-PARTIAL-item store (`totalDue=100, paidAmount=60`)
receiving a payment of 40: the count of non-PAID items drops to zero and the
loan is COMPLETED with `closedAt` stamped. -/
theorem C9_completion_iff_witness :
    pendingItemsCount (createEffect (exData 40) 5 1000 exStorePartial) 10 = 0 ∧
    getLoan (createEffect (exData 40) 5 1000 exStorePartial) 10 =
      some { exLoan with status := .COMPLETED, closedAt := some 1000 } := by
  have h := C9_completion_iff (exData 40) 5 1000 exStorePartial exLoan rfl rfl
    rfl (by decide) (createEffect (exData 40) 5 1000 exStorePartial) rfl
  exact ⟨by decide, h.1.mpr (by decide)⟩

/-- C3 (amended): the allocation fetch returns exactly the loan's non-deleted
PENDING/PARTIAL/OVERDUE items in ascending due-date order; equal due dates are
*not* tie-broken by sequence number (the stable sort keeps store order), so the
consumption order is fully determined only when the due dates are distinct —
in that case it is strictly earliest-due-first. -/
theorem C3_fetch_order (s : Store) (loanId : Nat) :
    (∀ it : ScheduleItem, it ∈ fetchOutstanding s loanId ↔
      (it ∈ s.scheduleItems ∧ it.loanId = loanId ∧
        eligibleStatus it.status ∧ it.deletedAt = none)) ∧
    (fetchOutstanding s loanId).Pairwise (fun a b => a.dueDate ≤ b.dueDate) ∧
    ((s.scheduleItems.Pairwise fun a b => a.dueDate ≠ b.dueDate) →
      (fetchOutstanding s loanId).Pairwise fun a b => a.dueDate < b.dueDate) := by
  have hle : (fetchOutstanding s loanId).Pairwise
      fun a b => a.dueDate ≤ b.dueDate := by
    have h := @List.sorted_mergeSort ScheduleItem
      (fun a b : ScheduleItem => decide (a.dueDate ≤ b.dueDate))
      (fun a b c h₁ h₂ => by
        simp only [decide_eq_true_eq] at h₁ h₂ ⊢
        exact le_trans h₁ h₂)
      (fun a b => by
        simp only [Bool.or_eq_true, decide_eq_true_eq]
        exact Int.le_total _ _)
      (s.scheduleItems.filter fun it =>
        it.loanId = loanId ∧ eligibleStatus it.status ∧ it.deletedAt = none)
    exact h.imp (by simp)
  refine ⟨?_, hle, ?_⟩
  · intro it
    rw [fetchOutstanding, List.mem_mergeSort, List.mem_filter]
    simp
  · intro hne
    have hfil : ((s.scheduleItems.filter fun it =>
        it.loanId = loanId ∧ eligibleStatus it.status ∧ it.deletedAt = none).Pairwise
          fun a b => a.dueDate ≠ b.dueDate) :=
      List.Pairwise.sublist (List.filter_sublist _) hne
    have hperm : List.Perm
        (s.scheduleItems.filter fun it =>
          it.loanId = loanId ∧ eligibleStatus it.status ∧ it.deletedAt = none)
        (fetchOutstanding s loanId) :=
      (List.mergeSort_perm _ _).symm
    have hne' : (fetchOutstanding s loanId).Pairwise
        fun a b => a.dueDate ≠ b.dueDate :=
      (hperm.pairwise_iff fun h => Ne.symm h).mp hfil
    exact (hle.and hne').imp fun h => lt_of_le_of_ne h.1 h.2

unseal List.merge List.mergeSort in
/-- C3 (witness): on the two-item store the due dates are distinct, so the
fetch is strictly sorted earliest-due-first, and the earlier-due item is in it. -/
theorem C3_fetch_order_witness :
    (fetchOutstanding exStore2 10).Pairwise
      (fun a b => a.dueDate < b.dueDate) ∧
    exItem1 ∈ fetchOutstanding exStore2 10 :=
  ⟨(C3_fetch_order exStore2 10).2.2 (by decide),
   ((C3_fetch_order exStore2 10).1 exItem1).mpr (by decide)⟩

/-- C1 (amended): recording a payment and immediately reversing it restores
every schedule item's `paidAmount` and `closedAt` exactly, and restores the
status of every item that was PENDING or PARTIAL; an item that was OVERDUE
before the payment comes back PENDING or PARTIAL instead of OVERDUE.  Provided
the loan still had at least one unpaid schedule item before the payment, the
loan rows are restored exactly (in particular ACTIVE with `closedAt` null if the
payment had flipped the loan to COMPLETED). -/
theorem C1_reversal_amended (data : CreateRepaymentData) (uid : Nat) (now : Int)
    (s : Store) (loan : Loan)
    (hfind : s.loans.find? (fun l => l.id = data.loanId) = some loan)
    (hdel : loan.deletedAt = none)
    (hact : loan.status = LoanStatus.ACTIVE)
    (hclosed : loan.closedAt = none)
    (hnd : (s.scheduleItems.map ScheduleItem.id).Nodup)
    (hlnd : (s.loans.map Loan.id).Nodup)
    (hrb : ∀ r ∈ s.repayments, r.id < s.nextRepaymentId)
    (hab : ∀ a ∈ s.allocations, a.repaymentId < s.nextRepaymentId)
    (hstat : ∀ it ∈ s.scheduleItems,
      (it.status = ScheduleStatus.PENDING → it.paidAmount = 0) ∧
      (it.status = ScheduleStatus.PARTIAL → 0 < it.paidAmount) ∧
      (it.status ≠ ScheduleStatus.PAID → it.closedAt = none))
    (hpending : pendingItemsCount s data.loanId ≠ 0) :
    ∀ s', createRepaymentRun data uid now s = .ok s' →
    ∀ s'', deleteRepayment s.nextRepaymentId Role.ADMIN none now s' = .ok s'' →
      List.Forall₂ (fun pre post =>
        post.paidAmount = pre.paidAmount ∧ post.closedAt = pre.closedAt ∧
        (post.status = pre.status ∨
          (pre.status = ScheduleStatus.OVERDUE ∧
            (post.status = ScheduleStatus.PENDING ∨
             post.status = ScheduleStatus.PARTIAL))))
        s.scheduleItems s''.scheduleItems ∧
      s''.loans = s.loans := by
  intro s' hs' s'' hs''
  rw [createRepaymentRun_spec data uid now s loan hfind hdel hact hnd] at hs'
  injection hs' with hs'
  subst hs'
  have hnd₂ := createSteps_targets_nodup data s hnd
  have hfind' := createEffect_find_repayment data uid now s hrb
  have hnd' : (((createEffect data uid now s).scheduleItems).map
      ScheduleItem.id).Nodup := by
    show ((s.scheduleItems.map
      (itemAfterSteps now (createSteps data s))).map ScheduleItem.id).Nodup
    rw [map_preserves_ids _ (itemAfterSteps_id now (createSteps data s))]
    exact hnd
  have hallocsOf := createEffect_allocationsOf data uid now s hab
  have hpair' : ((createEffect data uid now s).allocations.filter
      fun a => a.repaymentId = s.nextRepaymentId).Pairwise
        fun a b => a.scheduleItemId ≠ b.scheduleItemId := by
    show (allocationsOf (createEffect data uid now s) s.nextRepaymentId).Pairwise _
    rw [hallocsOf, List.pairwise_map]
    exact List.pairwise_map.mp hnd₂
  rw [deleteRepayment_spec s.nextRepaymentId Role.ADMIN none now
    (createEffect data uid now s) (newRepayment data uid now s) hfind' rfl
    (by decide)
    (by
      rintro ⟨hadm, -⟩
      cases hadm)
    (by
      show ¬ ((((now - now : Int) : ℚ) / (1000 * 60 * 60)) > 24)
      norm_num)
    hnd' hpair'] at hs''
  injection hs'' with hs''
  subst hs''
  -- pointwise behaviour of payment-then-reversal on each schedule item
  have hpoint : ∀ it ∈ s.scheduleItems,
      ((itemAfterReverse ((createSteps data s).map (stepAlloc s.nextRepaymentId))
          (itemAfterSteps now (createSteps data s) it)).paidAmount = it.paidAmount ∧
       (itemAfterReverse ((createSteps data s).map (stepAlloc s.nextRepaymentId))
          (itemAfterSteps now (createSteps data s) it)).closedAt = it.closedAt ∧
       ((itemAfterReverse ((createSteps data s).map (stepAlloc s.nextRepaymentId))
          (itemAfterSteps now (createSteps data s) it)).status = it.status ∨
        (it.status = ScheduleStatus.OVERDUE ∧
         ((itemAfterReverse ((createSteps data s).map (stepAlloc s.nextRepaymentId))
            (itemAfterSteps now (createSteps data s) it)).status =
              ScheduleStatus.PENDING ∨
          (itemAfterReverse ((createSteps data s).map (stepAlloc s.nextRepaymentId))
            (itemAfterSteps now (createSteps data s) it)).status =
              ScheduleStatus.PARTIAL)))) ∧
      (it.status ≠ ScheduleStatus.PAID →
        (itemAfterReverse ((createSteps data s).map (stepAlloc s.nextRepaymentId))
          (itemAfterSteps now (createSteps data s) it)).status ≠
            ScheduleStatus.PAID) := by
    intro it hit
    cases hf : (createSteps data s).find? (fun p => p.1.id = it.id) with
    | none =>
        have h1 : itemAfterSteps now (createSteps data s) it = it := by
          unfold itemAfterSteps
          rw [hf]
        have h2 : ((createSteps data s).map
            (stepAlloc s.nextRepaymentId)).find?
              (fun a => a.scheduleItemId = it.id) = none := by
          rw [stepAllocs_find?, hf]
          rfl
        have hg : itemAfterReverse ((createSteps data s).map
            (stepAlloc s.nextRepaymentId))
              (itemAfterSteps now (createSteps data s) it) = it := by
          rw [h1]
          unfold itemAfterReverse
          rw [h2]
        rw [hg]
        exact ⟨⟨rfl, rfl, Or.inl rfl⟩, fun h => h⟩
    | some p =>
        obtain ⟨p1, amt⟩ := p
        have hp_mem : (p1, amt) ∈ createSteps data s :=
          List.mem_of_find?_eq_some hf
        have hpid : p1.id = it.id := by
          simpa using List.find?_some hf
        have hp1 : p1 = it :=
          List.inj_on_of_nodup_map hnd (createSteps_fst_mem hp_mem).1 hit hpid
        subst hp1
        obtain ⟨-, hploan, helig, -⟩ := createSteps_fst_mem hp_mem
        obtain ⟨hpos, hle⟩ := allocSteps_mem hp_mem
        dsimp only at hpos hle hploan helig
        have hnotpaid : p1.status ≠ ScheduleStatus.PAID :=
          eligibleStatus_ne_paid helig
        have hclosed0 : p1.closedAt = none := (hstat p1 hit).2.2 hnotpaid
        have hlt : p1.paidAmount < p1.totalDue := by linarith
        have h1 : itemAfterSteps now (createSteps data s) p1 =
            { p1 with paidAmount := p1.paidAmount + amt,
                      status := if p1.paidAmount + amt ≥ p1.totalDue then
                        ScheduleStatus.PAID else ScheduleStatus.PARTIAL,
                      closedAt := if p1.paidAmount + amt ≥ p1.totalDue then
                        some now else none } := by
          unfold itemAfterSteps
          rw [hf]
        have h2 : ((createSteps data s).map
            (stepAlloc s.nextRepaymentId)).find?
              (fun a => a.scheduleItemId = p1.id) =
            some (stepAlloc s.nextRepaymentId (p1, amt)) := by
          rw [stepAllocs_find?, hf]
          rfl
        have hcancel : p1.paidAmount + amt - amt = p1.paidAmount := by ring
        have hg : itemAfterReverse ((createSteps data s).map
            (stepAlloc s.nextRepaymentId))
              (itemAfterSteps now (createSteps data s) p1) =
            { p1 with paidAmount := p1.paidAmount,
                      status := if p1.paidAmount ≤ 0 then ScheduleStatus.PENDING
                        else if p1.paidAmount < p1.totalDue then
                          ScheduleStatus.PARTIAL
                        else ScheduleStatus.PAID,
                      closedAt := none } := by
          rw [h1]
          unfold itemAfterReverse
          dsimp only
          rw [h2]
          dsimp only [stepAlloc]
          rw [hcancel]
        rw [hg]
        refine ⟨⟨rfl, hclosed0.symm, ?_⟩, fun _ => ?_⟩
        · cases hst : p1.status with
          | PENDING =>
              have hz : p1.paidAmount = 0 := (hstat p1 hit).1 hst
              left
              show (if p1.paidAmount ≤ 0 then ScheduleStatus.PENDING
                else if p1.paidAmount < p1.totalDue then ScheduleStatus.PARTIAL
                else ScheduleStatus.PAID) = _
              rw [if_pos (le_of_eq hz)]
          | PARTIAL =>
              have hz : 0 < p1.paidAmount := (hstat p1 hit).2.1 hst
              left
              show (if p1.paidAmount ≤ 0 then ScheduleStatus.PENDING
                else if p1.paidAmount < p1.totalDue then ScheduleStatus.PARTIAL
                else ScheduleStatus.PAID) = _
              rw [if_neg (not_le.mpr hz), if_pos hlt]
          | PAID => exact absurd hst hnotpaid
          | OVERDUE =>
              right
              refine ⟨rfl, ?_⟩
              show (if p1.paidAmount ≤ 0 then ScheduleStatus.PENDING
                else if p1.paidAmount < p1.totalDue then ScheduleStatus.PARTIAL
                else ScheduleStatus.PAID) = ScheduleStatus.PENDING ∨ _
              by_cases hz : p1.paidAmount ≤ 0
              · left
                rw [if_pos hz]
              · right
                rw [if_neg hz, if_pos hlt]
        · show (if p1.paidAmount ≤ 0 then ScheduleStatus.PENDING
            else if p1.paidAmount < p1.totalDue then ScheduleStatus.PARTIAL
            else ScheduleStatus.PAID) ≠ ScheduleStatus.PAID
          by_cases hz : p1.paidAmount ≤ 0
          · rw [if_pos hz]
            exact fun h => by cases h
          · rw [if_neg hz, if_pos hlt]
            exact fun h => by cases h
  constructor
  · show List.Forall₂ _ s.scheduleItems
      (((createEffect data uid now s).scheduleItems).map
        (itemAfterReverse (allocationsOf (createEffect data uid now s)
          s.nextRepaymentId)))
    rw [hallocsOf]
    show List.Forall₂ _ s.scheduleItems
      ((s.scheduleItems.map (itemAfterSteps now (createSteps data s))).map
        (itemAfterReverse ((createSteps data s).map
          (stepAlloc s.nextRepaymentId))))
    rw [List.map_map]
    exact forall₂_map_self _ _ fun it hit => (hpoint it hit).1
  · -- the loan rows are restored
    have hid_loan : loan.id = data.loanId := by
      simpa using List.find?_some hfind
    have hreact : ∀ l ∈ s.loans, reactivateLoanUpd data.loanId l = l := by
      intro l hl
      unfold reactivateLoanUpd
      by_cases hlid : l.id = data.loanId
      · rw [if_pos hlid]
        have hleq : l = loan :=
          List.inj_on_of_nodup_map hlnd hl (List.mem_of_find?_eq_some hfind)
            (by rw [hlid, hid_loan])
        subst hleq
        rw [← hact, ← hclosed]
      · rw [if_neg hlid]
    have hcomp : ∀ l : Loan, reactivateLoanUpd data.loanId
        (completeLoanUpd data.loanId now l) = reactivateLoanUpd data.loanId l := by
      intro l
      by_cases hlid : l.id = data.loanId
      · have h1 : completeLoanUpd data.loanId now l =
            { l with status := LoanStatus.COMPLETED, closedAt := some now } := by
          unfold completeLoanUpd
          rw [if_pos hlid]
        have h2 : ({ l with status := LoanStatus.COMPLETED, closedAt := some now } : Loan).id = data.loanId := hlid
        rw [h1]
        unfold reactivateLoanUpd
        rw [if_pos h2, if_pos hlid]
      · have h1 : completeLoanUpd data.loanId now l = l := by
          unfold completeLoanUpd
          rw [if_neg hlid]
        rw [h1]
    -- after reversal some item of the loan is still un-PAID
    have hex : ∃ it0, it0 ∈ s.scheduleItems ∧ it0.loanId = data.loanId ∧
        it0.status ≠ ScheduleStatus.PAID ∧ it0.deletedAt = none := by
      have hne : (s.scheduleItems.filter fun it =>
          it.loanId = data.loanId ∧ it.status ≠ ScheduleStatus.PAID ∧
            it.deletedAt = none) ≠ [] := by
        intro hnil
        exact hpending (by
          show (s.scheduleItems.filter _).length = 0
          rw [hnil]
          rfl)
      obtain ⟨it0, hit0⟩ := List.exists_mem_of_ne_nil _ hne
      have := List.mem_filter.mp hit0
      refine ⟨it0, this.1, ?_⟩
      simpa using this.2
    obtain ⟨it0, hit0, hl0, hs0, hd0⟩ := hex
    have hg0mem : (itemAfterReverse ((createSteps data s).map
        (stepAlloc s.nextRepaymentId))
          (itemAfterSteps now (createSteps data s) it0)) ∈
        (s.scheduleItems.map (itemAfterSteps now (createSteps data s))).map
          (itemAfterReverse ((createSteps data s).map
            (stepAlloc s.nextRepaymentId))) :=
      List.mem_map_of_mem _ (List.mem_map_of_mem _ hit0)
    have hg0pred : (itemAfterReverse ((createSteps data s).map
        (stepAlloc s.nextRepaymentId))
          (itemAfterSteps now (createSteps data s) it0)).loanId = data.loanId ∧
        (itemAfterReverse ((createSteps data s).map (stepAlloc s.nextRepaymentId))
          (itemAfterSteps now (createSteps data s) it0)).status ≠
            ScheduleStatus.PAID ∧
        (itemAfterReverse ((createSteps data s).map (stepAlloc s.nextRepaymentId))
          (itemAfterSteps now (createSteps data s) it0)).deletedAt = none := by
      refine ⟨?_, (hpoint it0 hit0).2 hs0, ?_⟩
      · rw [itemAfterReverse_loanId, itemAfterSteps_loanId]
        exact hl0
      · rw [itemAfterReverse_deletedAt, itemAfterSteps_deletedAt]
        exact hd0
    have hpend2 : pendingOfList
        ((s.scheduleItems.map (itemAfterSteps now (createSteps data s))).map
          (itemAfterReverse ((createSteps data s).map
            (stepAlloc s.nextRepaymentId)))) data.loanId > 0 := by
      show 0 < (List.filter _ _).length
      rw [List.length_pos]
      exact List.ne_nil_of_mem (List.mem_filter.mpr ⟨hg0mem, by
        simp only [decide_eq_true_eq]
        exact hg0pred⟩)
    have hloansE : ((createEffect data uid now s).scheduleItems.map
        (itemAfterReverse (allocationsOf (createEffect data uid now s)
          s.nextRepaymentId))) =
        ((s.scheduleItems.map (itemAfterSteps now (createSteps data s))).map
          (itemAfterReverse ((createSteps data s).map
            (stepAlloc s.nextRepaymentId)))) := by
      rw [hallocsOf]
      rfl
    show (if pendingOfList
        ((createEffect data uid now s).scheduleItems.map
          (itemAfterReverse (allocationsOf (createEffect data uid now s)
            s.nextRepaymentId))) data.loanId > 0 then
          (createEffect data uid now s).loans.map
            (reactivateLoanUpd data.loanId)
        else (createEffect data uid now s).loans) = s.loans
    rw [hloansE]
    rw [if_pos hpend2]
    by_cases hflip : pendingOfList
        (s.scheduleItems.map (itemAfterSteps now (createSteps data s)))
        data.loanId = 0
    · have hE : (createEffect data uid now s).loans =
          s.loans.map (completeLoanUpd data.loanId now) := by
        show (if pendingOfList (s.scheduleItems.map
            (itemAfterSteps now (createSteps data s))) data.loanId = 0 then
              s.loans.map (completeLoanUpd data.loanId now) else s.loans) = _
        rw [if_pos hflip]
      rw [hE, List.map_map]
      have hfun : ∀ l ∈ s.loans,
          (reactivateLoanUpd data.loanId ∘ completeLoanUpd data.loanId now) l
            = l := fun l hl => by
        simp only [Function.comp_apply]
        exact (hcomp l).trans (hreact l hl)
      rw [List.map_congr_left hfun]
      exact List.map_id'' (fun _ => rfl) _
    · have hE : (createEffect data uid now s).loans = s.loans := by
        show (if pendingOfList (s.scheduleItems.map
            (itemAfterSteps now (createSteps data s))) data.loanId = 0 then
              s.loans.map (completeLoanUpd data.loanId now) else s.loans) = _
        rw [if_neg hflip]
      rw [hE]
      rw [List.map_congr_left hreact]
      exact List.map_id'' (fun _ => rfl) _

unseal Rat.add Rat.sub Rat.mul Rat.inv List.merge List.mergeSort in
/-- C1 (witness): payment of 20 against the OVERDUE-item store, then immediate
reversal: `paidAmount` and `closedAt` are restored and the loan rows are
unchanged (the item itself comes back PENDING, as the amended claim states). -/
theorem C1_reversal_amended_witness :
    List.Forall₂ (fun pre post =>
      post.paidAmount = pre.paidAmount ∧ post.closedAt = pre.closedAt ∧
      (post.status = pre.status ∨
        (pre.status = ScheduleStatus.OVERDUE ∧
          (post.status = ScheduleStatus.PENDING ∨
           post.status = ScheduleStatus.PARTIAL))))
      exStoreOverdue.scheduleItems
      (deleteEffect 0 (newRepayment (exData 20) 5 1000 exStoreOverdue) 1000
        (createEffect (exData 20) 5 1000 exStoreOverdue)).scheduleItems ∧
    (deleteEffect 0 (newRepayment (exData 20) 5 1000 exStoreOverdue) 1000
      (createEffect (exData 20) 5 1000 exStoreOverdue)).loans =
        exStoreOverdue.loans :=
  C1_reversal_amended (exData 20) 5 1000 exStoreOverdue exLoan rfl rfl rfl rfl
    (by decide) (by decide) (by decide) (by decide) (by decide) (by decide)
    (createEffect (exData 20) 5 1000 exStoreOverdue) rfl
    (deleteEffect 0 (newRepayment (exData 20) 5 1000 exStoreOverdue) 1000
      (createEffect (exData 20) 5 1000 exStoreOverdue)) rfl


/-- C6: the invariant `0 ≤ paidAmount ≤ totalDue` on every schedule item is
preserved by every successful `createRepayment` and every successful
`deleteRepayment`: in any store reachable from a well-formed store by a
sequence of such operations, no item's `paidAmount` exceeds its `totalDue` or
drops below zero, and the sum of the item's active allocation amounts never
exceeds its `totalDue`. -/
theorem C6_paid_invariant (s₀ s : Store) (h₀ : StoreWF s₀)
    (hr : Reachable s₀ s) :
    ∀ it ∈ s.scheduleItems,
      0 ≤ it.paidAmount ∧ it.paidAmount ≤ it.totalDue ∧
        activeAllocSum s it.id ≤ it.totalDue := by
  intro it hit
  have wf := StoreWF_reachable h₀ hr
  refine ⟨wf.paidNonneg it hit, wf.paidLe it hit, ?_⟩
  rw [← wf.paidMatches it hit]
  exact wf.paidLe it hit

/-- Witness for C6: the two-installment store is well-formed, the store after
the 70-payment is reachable from it by one `createRepayment` step, and the
invariant holds at the first schedule item of the resulting store. -/
theorem C6_paid_invariant_witness :
    0 ≤ (itemAfterSteps 1000 (createSteps (exData 70) exStore2)
        exItem1).paidAmount ∧
    (itemAfterSteps 1000 (createSteps (exData 70) exStore2)
        exItem1).paidAmount ≤
      (itemAfterSteps 1000 (createSteps (exData 70) exStore2)
        exItem1).totalDue ∧
    activeAllocSum (createEffect (exData 70) 5 1000 exStore2)
        (itemAfterSteps 1000 (createSteps (exData 70) exStore2) exItem1).id ≤
      (itemAfterSteps 1000 (createSteps (exData 70) exStore2)
        exItem1).totalDue := by
  have hwf : StoreWF exStore2 := by
    refine ⟨?_, ?_, ?_, ?_, ?_, ?_, ?_, ?_, ?_⟩
    · decide
    · decide
    · intro r hr
      cases hr
    · intro a ha
      cases ha
    · intro a ha
      cases ha
    · exact List.Pairwise.nil
    · intro it hit
      rcases List.mem_cons.mp hit with rfl | hit2
      · rfl
      rcases List.mem_cons.mp hit2 with rfl | h
      · rfl
      cases h
    · intro it hit
      rcases List.mem_cons.mp hit with rfl | hit2
      · exact le_refl _
      rcases List.mem_cons.mp hit2 with rfl | h
      · exact le_refl _
      cases h
    · intro it hit
      rcases List.mem_cons.mp hit with rfl | hit2
      · norm_num [exItem1]
      rcases List.mem_cons.mp hit2 with rfl | h
      · norm_num [exItem2]
      cases h
  have hrun : createRepaymentRun (exData 70) 5 1000 exStore2 =
      .ok (createEffect (exData 70) 5 1000 exStore2) :=
    createRepaymentRun_spec (exData 70) 5 1000 exStore2 exLoan rfl rfl rfl
      (by decide)
  have hreach : Reachable exStore2 (createEffect (exData 70) 5 1000 exStore2) :=
    Relation.ReflTransGen.single (Step.create (exData 70) 5 1000 hrun)
  exact C6_paid_invariant exStore2 (createEffect (exData 70) 5 1000 exStore2)
    hwf hreach (itemAfterSteps 1000 (createSteps (exData 70) exStore2) exItem1)
    (List.mem_map_of_mem _ (List.mem_cons_self _ _))


end RepaymentService
